import Mathlib

/-!
Verification of the pricing & measurement engine of the "Cut & Order Manager"
repository. The definitions below are a shallow embedding of the functions in
src/utils.ts (measurement utilities, `calculateJobCost`, `getStockStatus`) and
of the scalar `calculateJobCost` method in src/scripts/interactions.js.
JavaScript numbers are modelled as exact rationals, wrapped in `JSNum` where
NaN / Infinity can arise.
-/

/-- Model of a JavaScript number: NaN, a signed infinity (`true` = positive),
or a finite value (finite values are modelled as exact rationals). -/
inductive JSNum where
  | nan : JSNum
  | inf : Bool → JSNum
  | fin : ℚ → JSNum
  deriving DecidableEq

/-- JS truthiness of a number: `0` and `NaN` are falsy, everything else truthy. -/
def JSNum.truthy : JSNum → Bool
  | .nan => false
  | .inf _ => true
  | .fin q => decide (q ≠ 0)

/-- JS comparison `x <= r` of a number against a finite number `r`:
any comparison involving NaN is false; `-Infinity <= r` holds, `Infinity <= r` fails. -/
def JSNum.leQ : JSNum → ℚ → Bool
  | .nan, _ => false
  | .inf b, _ => !b
  | .fin q, r => decide (q ≤ r)

/-- JS comparison `a < y` of a finite number `a` against a number `y`:
false against NaN, true against `Infinity`, false against `-Infinity`. -/
def qLtJS (a : ℚ) : JSNum → Bool
  | .nan => false
  | .inf b => b
  | .fin q => decide (a < q)

/-- JS multiplication on numbers (IEEE rules for NaN and infinities;
`Infinity * 0` is NaN). -/
def JSNum.mul : JSNum → JSNum → JSNum
  | .nan, _ => .nan
  | _, .nan => .nan
  | .inf a, .inf b => .inf (a == b)
  | .inf a, .fin q => if q = 0 then .nan else .inf (a == decide (0 < q))
  | .fin q, .inf a => if q = 0 then .nan else .inf (a == decide (0 < q))
  | .fin p, .fin q => .fin (p * q)

/-- JS addition on numbers (IEEE rules; `Infinity + -Infinity` is NaN). -/
def JSNum.add : JSNum → JSNum → JSNum
  | .nan, _ => .nan
  | _, .nan => .nan
  | .inf a, .inf b => if a = b then .inf a else .nan
  | .inf a, .fin _ => .inf a
  | .fin _, .inf a => .inf a
  | .fin p, .fin q => .fin (p + q)

/-- Truncation of a rational toward zero (the integer part of a JS number). -/
def ratTrunc (q : ℚ) : ℤ := if 0 ≤ q then ⌊q⌋ else ⌈q⌉

/-- JS `parseInt` applied to a number (via its decimal string form), modelled
as truncation toward zero for finite values and NaN for infinities. The
exponential-notation corner of `parseInt` for very small or very large
magnitudes is not modelled. -/
def JSNum.toIntJS : JSNum → JSNum
  | .nan => .nan
  | .inf _ => .nan
  | .fin q => .fin (ratTrunc q)

/-- The five-field cost breakdown returned by `calculateJobCost` in src/utils.ts. -/
structure JobCost where
  materialCost : ℚ
  laborCost : ℚ
  wasteCost : ℚ
  markup : ℚ
  totalCost : ℚ
  deriving DecidableEq

/-- `calculateJobCost` from src/utils.ts. Its first parameter is the (already
computed) material cost; the second parameter `_length` is kept for backward
compatibility and unused by the body. The source's default configuration is
`laborRate = 0.25`, `wastePercent = 15`, `markupPercent = 25`. -/
def calculateJobCost (materialCost : ℚ) (_length : ℚ) (quantity : ℚ)
    (laborRate : ℚ) (wastePercent : ℚ) (markupPercent : ℚ) : JobCost :=
  let laborCost := quantity * laborRate
  let wasteCost := materialCost * (wastePercent / 100)
  let subtotal := materialCost + laborCost + wasteCost
  let markup := subtotal * (markupPercent / 100)
  let totalCost := subtotal + markup
  ⟨materialCost, laborCost, wasteCost, markup, totalCost⟩

/-- `calculateJobCost` from src/scripts/interactions.js (the vanilla-JS tree):
returns a single total, with input validation. `material` is `none` when the
material object is missing (falsy), `some unitCost` otherwise; `length` and
`quantity` are JS numbers. `parseFloat` applied to a number is the identity. -/
def calculateJobCostJS (material : Option ℚ) (length quantity : JSNum) : JSNum :=
  if !material.isSome || !length.truthy || !quantity.truthy then .fin 0
  else
    let lengthNum := length
    let quantityNum := quantity.toIntJS
    if lengthNum == JSNum.nan || lengthNum.leQ 0 || quantityNum.leQ 0 then .fin 0
    else
      let materialCost := ((JSNum.fin (material.getD 0)).mul lengthNum).mul quantityNum
      let laborCost := quantityNum.mul (.fin (1/4))
      let wasteAllowance := materialCost.mul (.fin (15/100))
      let subtotal := (materialCost.add laborCost).add wasteAllowance
      let markup := subtotal.mul (.fin (1/4))
      subtotal.add markup

/-- The tri-state stock classification of `getStockStatus` in src/utils.ts. -/
inductive StockLevel where
  | sufficient : StockLevel
  | low : StockLevel
  | insufficient : StockLevel
  deriving DecidableEq

/-- The record returned by `getStockStatus` in src/utils.ts. -/
structure StockStatus where
  status : StockLevel
  message : String
  color : String
  deriving DecidableEq

/-- Truthiness of an optional JS argument: an omitted argument is falsy. -/
def optTruthy : Option JSNum → Bool
  | none => false
  | some v => v.truthy

/-- `getStockStatus` from src/utils.ts. The optional parameters
`requiredLength` and `quantity` gate the insufficiency check: it runs only
when both are truthy. -/
def getStockStatus (currentStock threshold : ℚ)
    (requiredLength quantity : Option JSNum) : StockStatus :=
  if optTruthy requiredLength && optTruthy quantity then
    let needed := JSNum.mul (requiredLength.getD JSNum.nan) (quantity.getD JSNum.nan)
    if qLtJS currentStock needed then
      ⟨StockLevel.insufficient, "Insufficient Stock", "text-red-600"⟩
    else if currentStock ≤ threshold then
      ⟨StockLevel.low, "Low Stock Warning", "text-orange-600"⟩
    else
      ⟨StockLevel.sufficient, "Stock Available", "text-green-600"⟩
  else if currentStock ≤ threshold then
    ⟨StockLevel.low, "Low Stock Warning", "text-orange-600"⟩
  else
    ⟨StockLevel.sufficient, "Stock Available", "text-green-600"⟩

/-- The two unit systems of the measurement utilities. -/
inductive MUnit where
  | imperial : MUnit
  | metric : MUnit
  deriving DecidableEq

/-- `measurementUtils.feetToMeters` from src/utils.ts. -/
def feetToMeters (feet : ℚ) : ℚ := feet * (0.3048 : ℚ)

/-- `measurementUtils.metersToFeet` from src/utils.ts. -/
def metersToFeet (meters : ℚ) : ℚ := meters * (3.28084 : ℚ)

/-- `measurementUtils.convertMeasurement` from src/utils.ts. -/
def convertMeasurement (value : ℚ) (fromUnit toUnit : MUnit) : ℚ :=
  if fromUnit = toUnit then value
  else if fromUnit = MUnit.imperial && toUnit = MUnit.metric then feetToMeters value
  else metersToFeet value

/-- The apostrophe character: the feet marker of imperial measurements. -/
def chSQ : Char := Char.ofNat 39

/-- The double-quote character: the inches marker of imperial measurements. -/
def chDQ : Char := Char.ofNat 34

/-- The character of one decimal digit. -/
def digitCh (d : ℕ) : Char := Char.ofNat (48 + d)

/-- Plain decimal digit list of a natural number. -/
def natReprDec (n : ℕ) : List Char :=
  if h : n < 10 then [digitCh n]
  else natReprDec (n / 10) ++ [digitCh (n % 10)]
decreasing_by exact Nat.div_lt_self (by omega) (by omega)

/-- Exponential rendering of an integral JS number at or above 1e21, in the
style of `String(1e21) = "1e+21"`: the significant digits (the decimal digits
with trailing zeros removed, a point after the first when more than one
remains) followed by `e+` and the decimal exponent. Finite numbers are exact
rationals throughout this development, so the significant digits are the exact
ones; the shortest-round-trip truncation a double would apply beyond 17
digits is outside the model, like double rounding elsewhere. -/
def expRepr (n : ℕ) : List Char :=
  let ds := natReprDec n
  let sig := (List.dropWhile (fun c => c == '0') ds.reverse).reverse
  (match sig with
   | [] => ['0']
   | [c] => [c]
   | c :: cs => c :: '.' :: cs) ++ 'e' :: '+' :: natReprDec (ds.length - 1)

/-- Digit list of an integral JS number as rendered inside a template
literal: plain decimal below 1e21, exponential notation at or above
(`String(1e21)` is `"1e+21"`). -/
def natRepr (n : ℕ) : List Char :=
  if n < 10 ^ 21 then natReprDec n else expRepr n

/-- String form of a natural number, as JS renders it. -/
def strOfNat (n : ℕ) : String := ⟨natRepr n⟩

/-- Rendering of an integer, as JS renders an integral number. -/
def intRepr (i : ℤ) : List Char :=
  if i < 0 then '-' :: natRepr i.natAbs else natRepr i.toNat

/-- Numeric value of a list of decimal digit characters. -/
def digitsVal (l : List Char) : ℕ := l.foldl (fun a c => 10 * a + (c.toNat - 48)) 0

/-- Value contributed by the fractional digits of a decimal numeral. -/
def fracVal (l : List Char) : ℚ := (digitsVal l : ℚ) / (10 : ℚ) ^ l.length

/-- Whitespace recognized by the models of JS `trim` and `parseFloat`. -/
def isWSChar (c : Char) : Bool := c == ' ' || c == '\t' || c == '\n' || c == '\r'

/-- Model of JS `String.prototype.trim`. -/
def jsTrim (l : List Char) : List Char :=
  ((l.dropWhile isWSChar).reverse.dropWhile isWSChar).reverse

/-- Models a JS `match` against the regex `(\d+(?:\.\d+)?)S` for a literal
suffix `S`: scan left to right and return the capture group of the leftmost
match, split into its integer digits and its fractional digits (empty when the
group has no fraction), or `none` when nothing matches. The digit runs are
greedy; a shorter run can never extend a failed attempt because the suffixes
in use never start with a digit or a dot. -/
def scanMatchStr (suffix : List Char) : List Char → Option (List Char × List Char)
  | [] => none
  | c :: rest =>
    if c.isDigit then
      let d1 := List.takeWhile Char.isDigit (c :: rest)
      let r1 := List.dropWhile Char.isDigit (c :: rest)
      if r1.head? = some '.' then
        let d2 := List.takeWhile Char.isDigit r1.tail
        let r3 := List.dropWhile Char.isDigit r1.tail
        if d2 ≠ [] ∧ List.isPrefixOf suffix r3 then some (d1, d2)
        else if List.isPrefixOf suffix r1 then some (d1, [])
        else scanMatchStr suffix rest
      else if List.isPrefixOf suffix r1 then some (d1, [])
      else scanMatchStr suffix rest
    else scanMatchStr suffix rest

/-- `parseFloat` of a matched capture group (`digits[.digits]` text), with the
source's `match ? parseFloat(match[1]) : 0` convention: 0 when there was no
match. -/
def matchVal : Option (List Char × List Char) → ℚ
  | none => 0
  | some (d1, d2) => (digitsVal d1 : ℚ) + fracVal d2

/-- Syntactic outcome of JS `parseFloat`: NaN, a signed `Infinity` literal, or
a decimal numeral (sign, integer digits, fractional digits, exponent). -/
inductive FloatTok where
  | nan : FloatTok
  | inf : Bool → FloatTok
  | num : Bool → List Char → List Char → ℤ → FloatTok
  deriving DecidableEq

/-- Optional leading sign: returns (is-nonnegative, rest). -/
def readSign : List Char → Bool × List Char
  | [] => (true, [])
  | c :: t =>
    if c == '-' then (false, t)
    else if c == '+' then (true, t)
    else (true, c :: t)

/-- Exponent tail after `e`/`E`: optional sign then digits; a malformed tail
contributes exponent 0 (JS `parseFloat` stops before the `e`). -/
def readExpTail (t : List Char) : ℤ :=
  let s := readSign t
  let d := List.takeWhile Char.isDigit s.2
  if d = [] then 0 else if s.1 then (digitsVal d : ℤ) else -(digitsVal d : ℤ)

/-- Optional exponent part of a JS decimal literal. -/
def readExp : List Char → ℤ
  | [] => 0
  | c :: t => if c == 'e' || c == 'E' then readExpTail t else 0

/-- Lexing part of JS `parseFloat`: skip leading whitespace, optional sign,
then either the literal `Infinity` or a decimal numeral
`digits [. digits] [e|E [sign] digits]` with at least one digit before or
after the dot; trailing characters are ignored. -/
def jsParseFloatTok (l : List Char) : FloatTok :=
  let s := readSign (List.dropWhile isWSChar l)
  if List.isPrefixOf ['I', 'n', 'f', 'i', 'n', 'i', 't', 'y'] s.2 then FloatTok.inf s.1
  else
    let d1 := List.takeWhile Char.isDigit s.2
    let r1 := List.dropWhile Char.isDigit s.2
    let fr : List Char × List Char :=
      if r1.head? = some '.' then
        (List.takeWhile Char.isDigit r1.tail, List.dropWhile Char.isDigit r1.tail)
      else ([], r1)
    if d1 = [] ∧ fr.1 = [] then FloatTok.nan
    else FloatTok.num s.1 d1 fr.1 (readExp fr.2)

/-- Numeric value of a `parseFloat` outcome. -/
def tokVal : FloatTok → JSNum
  | FloatTok.nan => JSNum.nan
  | FloatTok.inf p => JSNum.inf p
  | FloatTok.num p d1 d2 e =>
    JSNum.fin ((if p then 1 else -1) * ((digitsVal d1 : ℚ) + fracVal d2) * (10 : ℚ) ^ e)

/-- Model of JS `parseFloat` on a character list. -/
def jsParseFloatL (l : List Char) : JSNum := tokVal (jsParseFloatTok l)

/-- JS `Math.round`: nearest integer, halves toward positive infinity. -/
def jsRound (q : ℚ) : ℤ := ⌊q + 1/2⌋

/-- JS `%` on finite numbers (fmod): remainder with the dividend's sign. -/
def jsFmod (a b : ℚ) : ℚ := a - b * (ratTrunc (a / b) : ℚ)

/-- `measurementUtils.formatMeasurement` from src/utils.ts, producing the
character list of the rendered string. -/
def formatMeasurementL (value : ℚ) (unit : MUnit) : List Char :=
  match unit with
  | MUnit.metric =>
    if 1 ≤ value then
      let meters : ℤ := ⌊value⌋
      let cm : ℤ := jsRound ((value - (meters : ℚ)) * 100)
      if cm = 0 then intRepr meters ++ ['m']
      else intRepr meters ++ ['m', ' '] ++ intRepr cm ++ ['c', 'm']
    else intRepr (jsRound (value * 100)) ++ ['c', 'm']
  | MUnit.imperial =>
    let totalInches := value * 12
    let feet : ℤ := ⌊totalInches / 12⌋
    let inches : ℤ := jsRound (jsFmod totalInches 12)
    if feet = 0 then intRepr inches ++ [chDQ]
    else if inches = 0 then intRepr feet ++ [chSQ]
    else intRepr feet ++ [chSQ, ' '] ++ intRepr inches ++ [chDQ]

/-- `measurementUtils.formatMeasurement` from src/utils.ts. -/
def formatMeasurement (value : ℚ) (unit : MUnit) : String :=
  ⟨formatMeasurementL value unit⟩

/-- `measurementUtils.parseFeetInches` from src/utils.ts, on a character list:
feet and inches are read with the regexes `(\d+(?:\.\d+)?)'` and
`(\d+(?:\.\d+)?)"` (an absent match leaves the value 0); inches-only input
divides by 12; with neither marker the input is parsed as a plain number when
that parse is not NaN; otherwise the fall-through `feet + inches / 12` is
returned. -/
def parseFeetInchesL (input : List Char) : JSNum :=
  let trimmed := jsTrim input
  let feet : ℚ := matchVal (scanMatchStr [chSQ] trimmed)
  let inches : ℚ := matchVal (scanMatchStr [chDQ] trimmed)
  if feet = 0 ∧ inches > 0 then JSNum.fin (inches / 12)
  else if feet = 0 ∧ inches = 0 then
    match jsParseFloatL trimmed with
    | JSNum.nan => JSNum.fin (feet + inches / 12)
    | v => v
  else JSNum.fin (feet + inches / 12)

/-- `measurementUtils.parseFeetInches` from src/utils.ts. -/
def parseFeetInches (input : String) : JSNum := parseFeetInchesL input.data

/-- `measurementUtils.parseMetersCm` from src/utils.ts, on a character list:
symmetric to `parseFeetInchesL` with the `m` and `cm` markers and the divisor
100. -/
def parseMetersCmL (input : List Char) : JSNum :=
  let trimmed := jsTrim input
  let meters : ℚ := matchVal (scanMatchStr ['m'] trimmed)
  let cm : ℚ := matchVal (scanMatchStr ['c', 'm'] trimmed)
  if meters = 0 ∧ cm > 0 then JSNum.fin (cm / 100)
  else if meters = 0 ∧ cm = 0 then
    match jsParseFloatL trimmed with
    | JSNum.nan => JSNum.fin (meters + cm / 100)
    | v => v
  else JSNum.fin (meters + cm / 100)

/-- `measurementUtils.parseMetersCm` from src/utils.ts. -/
def parseMetersCm (input : String) : JSNum := parseMetersCmL input.data

lemma imperial_ne_metric : MUnit.imperial ≠ MUnit.metric := by decide

lemma metric_ne_imperial : MUnit.metric ≠ MUnit.imperial := by decide

example : calculateJobCost 100 5 2 (1/4) 15 25 = ⟨100, 1/2, 15, 231/8, 1155/8⟩ := by
  norm_num [calculateJobCost, JobCost.mk.injEq]
example : calculateJobCost 10 5 2 (1/4) 15 25 = ⟨10, 1/2, 3/2, 3, 15⟩ := by
  norm_num [calculateJobCost, JobCost.mk.injEq]
example : (getStockStatus 10 5 (some (JSNum.fin 2)) (some (JSNum.fin 5))).status
    = StockLevel.sufficient := by
  norm_num [getStockStatus, optTruthy, JSNum.truthy, JSNum.mul, qLtJS]
example : (getStockStatus 10 5 (some (JSNum.fin 2)) (some (JSNum.fin 6))).status
    = StockLevel.insufficient := by
  norm_num [getStockStatus, optTruthy, JSNum.truthy, JSNum.mul, qLtJS]
example : (getStockStatus 4 5 (some (JSNum.fin 1)) (some (JSNum.fin 1))).status
    = StockLevel.low := by
  norm_num [getStockStatus, optTruthy, JSNum.truthy, JSNum.mul, qLtJS]
example : convertMeasurement 1 MUnit.imperial MUnit.metric = 0.3048 := by
  norm_num [convertMeasurement, feetToMeters, show ¬MUnit.imperial = MUnit.metric by decide]
example : calculateJobCostJS (some 10) (JSNum.fin 5) (JSNum.fin 2) = JSNum.fin (1155/8) := by
  norm_num [calculateJobCostJS, JSNum.truthy, JSNum.toIntJS, ratTrunc, JSNum.mul, JSNum.add,
    JSNum.leQ, show ¬JSNum.fin 5 = JSNum.nan by decide]
example : calculateJobCostJS (some 10) (JSNum.fin 0) (JSNum.fin 2) = JSNum.fin 0 := by
  norm_num [calculateJobCostJS, JSNum.truthy]

/-- C1 counterexample: calling `calculateJobCost` with 10, 5, 2 and the default
configuration does not produce the claimed breakdown. The function's first
argument is the material cost itself (it performs no multiplication by length
and quantity), so the result has `materialCost = 10` and `totalCost = 15`. -/
theorem calculateJobCost_unit_args_counterexample :
    calculateJobCost 10 5 2 (1/4) 15 25 = ⟨10, 1/2, 3/2, 3, 15⟩ ∧
    calculateJobCost 10 5 2 (1/4) 15 25 ≠ ⟨100, 1/2, 15, 231/8, 1155/8⟩ := by
  constructor
  · norm_num [calculateJobCost, JobCost.mk.injEq]
  · norm_num [calculateJobCost, JobCost.mk.injEq]

/-- C1 (amended): `calculateJobCost` receives the already-computed material
cost `materialUnitCost * length * quantity` as its first argument — the caller
performs that multiplication. With materialUnitCost 10, length 5, quantity 2
and the default configuration this yields materialCost 100, laborCost 0.5,
wasteCost 15, markup 28.875 and totalCost 144.375. -/
theorem calculateJobCost_breakdown_from_materialCost :
    calculateJobCost (10 * 5 * 2) 5 2 (1/4) 15 25 = ⟨100, 1/2, 15, 231/8, 1155/8⟩ := by
  norm_num [calculateJobCost, JobCost.mk.injEq]

/-- C2 counterexample: the breakdown `calculateJobCost` of src/utils.ts has no
input validation: with quantity 0 (or length 0) it does not return the all-zero
breakdown; e.g. the material cost is passed through unchanged. -/
theorem calculateJobCost_no_zero_guard_counterexample :
    calculateJobCost 100 5 0 (1/4) 15 25 ≠ ⟨0, 0, 0, 0, 0⟩ ∧
    (calculateJobCost 100 5 0 (1/4) 15 25).materialCost = 100 ∧
    calculateJobCost 100 0 2 (1/4) 15 25 ≠ ⟨0, 0, 0, 0, 0⟩ := by
  refine ⟨?_, ?_, ?_⟩
  · norm_num [calculateJobCost, JobCost.mk.injEq]
  · norm_num [calculateJobCost]
  · norm_num [calculateJobCost, JobCost.mk.injEq]

/-- C2 (amended): the zero-on-invalid-input behaviour lives in the scalar
`calculateJobCost` of src/scripts/interactions.js: whenever length or quantity
is NaN or is a finite value `≤ 0`, it returns 0 (for any material argument),
and it does not fail. The breakdown function of src/utils.ts performs no such
validation. -/
theorem calculateJobCostJS_invalid_input_zero (material : Option ℚ)
    (length quantity : JSNum)
    (h : length = JSNum.nan ∨ quantity = JSNum.nan ∨
         (∃ a, length = JSNum.fin a ∧ a ≤ 0) ∨ (∃ b, quantity = JSNum.fin b ∧ b ≤ 0)) :
    calculateJobCostJS material length quantity = JSNum.fin 0 := by
  rcases h with rfl | rfl | ⟨a, rfl, ha⟩ | ⟨b, rfl, hb⟩
  · simp [calculateJobCostJS, JSNum.truthy]
  · simp [calculateJobCostJS, JSNum.truthy]
  · by_cases h0 : a = 0
    · subst h0; simp [calculateJobCostJS, JSNum.truthy]
    · simp [calculateJobCostJS, JSNum.leQ, ha]
  · by_cases h0 : b = 0
    · subst h0; simp [calculateJobCostJS, JSNum.truthy]
    · have hb' : b < 0 := lt_of_le_of_ne hb h0
      have htr : ratTrunc b ≤ 0 := by
        unfold ratTrunc
        rw [if_neg (not_le.mpr hb')]
        exact Int.ceil_le.mpr (by exact_mod_cast hb)
      have hcast : ((ratTrunc b : ℤ) : ℚ) ≤ 0 := by exact_mod_cast htr
      simp [calculateJobCostJS, JSNum.toIntJS, JSNum.leQ, hcast]

/-- C2 (amended) witness at length 0. -/
theorem calculateJobCostJS_invalid_input_zero_witness :
    calculateJobCostJS (some 10) (JSNum.fin 0) (JSNum.fin 2) = JSNum.fin 0 :=
  calculateJobCostJS_invalid_input_zero (some 10) (JSNum.fin 0) (JSNum.fin 2)
    (Or.inr (Or.inr (Or.inl ⟨0, rfl, le_refl 0⟩)))

/-- C9: the result of `calculateJobCost` of src/utils.ts is independent of its
second (length) argument: any two lengths give identical breakdowns for the
same remaining arguments. -/
theorem calculateJobCost_ignores_length (materialCost quantity laborRate wastePercent
    markupPercent l1 l2 : ℚ) :
    calculateJobCost materialCost l1 quantity laborRate wastePercent markupPercent =
    calculateJobCost materialCost l2 quantity laborRate wastePercent markupPercent := rfl

/-- C4: for positive stock, threshold, requested length and quantity,
`getStockStatus` applies its rules in order: `insufficient` iff the requested
need strictly exceeds current stock; otherwise `low` iff current stock is at or
below the threshold; otherwise `sufficient`. -/
theorem getStockStatus_order_rules (currentStock threshold a b : ℚ)
    (hcs : 0 < currentStock) (ht : 0 < threshold) (ha : 0 < a) (hb : 0 < b) :
    ((getStockStatus currentStock threshold (some (JSNum.fin a))
        (some (JSNum.fin b))).status = StockLevel.insufficient ↔
      a * b > currentStock) ∧
    ((getStockStatus currentStock threshold (some (JSNum.fin a))
        (some (JSNum.fin b))).status = StockLevel.low ↔
      ¬ a * b > currentStock ∧ currentStock ≤ threshold) ∧
    ((getStockStatus currentStock threshold (some (JSNum.fin a))
        (some (JSNum.fin b))).status = StockLevel.sufficient ↔
      ¬ a * b > currentStock ∧ ¬ currentStock ≤ threshold) := by
  have hta : optTruthy (some (JSNum.fin a)) = true := by
    simp [optTruthy, JSNum.truthy, ne_of_gt ha]
  have htb : optTruthy (some (JSNum.fin b)) = true := by
    simp [optTruthy, JSNum.truthy, ne_of_gt hb]
  by_cases h1 : currentStock < a * b <;> by_cases h2 : currentStock ≤ threshold <;>
    simp [getStockStatus, hta, htb, JSNum.mul, qLtJS, h1, h2, gt_iff_lt]

/-- C4 witness: requested need 2 × 5 exactly equals currentStock 10, and the
status is `sufficient`, not `insufficient`. -/
theorem getStockStatus_order_rules_witness :
    (getStockStatus 10 5 (some (JSNum.fin 2)) (some (JSNum.fin 5))).status
      = StockLevel.sufficient :=
  ((getStockStatus_order_rules 10 5 2 5 (by norm_num) (by norm_num) (by norm_num)
      (by norm_num)).2.2).mpr (by norm_num)

/-- C10: when `requiredLength` or `quantity` is omitted or falsy, the
insufficiency check of `getStockStatus` is skipped entirely: the status is
never `insufficient` and is determined solely by comparing current stock with
the threshold, for any current stock (including 0). -/
theorem getStockStatus_falsy_skips_insufficient (currentStock threshold : ℚ)
    (requiredLength quantity : Option JSNum)
    (h : optTruthy requiredLength = false ∨ optTruthy quantity = false) :
    (getStockStatus currentStock threshold requiredLength quantity).status
        ≠ StockLevel.insufficient ∧
    ((getStockStatus currentStock threshold requiredLength quantity).status
        = StockLevel.low ↔ currentStock ≤ threshold) ∧
    ((getStockStatus currentStock threshold requiredLength quantity).status
        = StockLevel.sufficient ↔ ¬ currentStock ≤ threshold) := by
  have hand : (optTruthy requiredLength && optTruthy quantity) = false := by
    rcases h with h | h <;> simp [h]
  by_cases h2 : currentStock ≤ threshold <;> simp [getStockStatus, hand, h2]

/-- C10 witness: with current stock 0 and an omitted required length, the
status is `low`, not `insufficient`. -/
theorem getStockStatus_falsy_witness :
    (getStockStatus 0 5 none (some (JSNum.fin 3))).status = StockLevel.low :=
  ((getStockStatus_falsy_skips_insufficient 0 5 none (some (JSNum.fin 3))
      (Or.inl rfl)).2.1).mpr (by norm_num)

/-- C6 counterexample: the forward-then-back conversion multiplies by exactly
0.3048 × 3.28084 = 1.000000032, so for the value 100 the round trip misses the
original by 0.0000032, which exceeds 1e-6. -/
theorem convertMeasurement_roundtrip_counterexample :
    ¬ |convertMeasurement (convertMeasurement 100 MUnit.imperial MUnit.metric)
        MUnit.metric MUnit.imperial - 100| ≤ 1/1000000 := by
  have h : convertMeasurement (convertMeasurement 100 MUnit.imperial MUnit.metric)
      MUnit.metric MUnit.imperial = 100.0000032 := by
    norm_num [convertMeasurement, feetToMeters, metersToFeet, imperial_ne_metric,
      metric_ne_imperial]
  rw [h]
  rw [show |(100.0000032 : ℚ) - 100| = 0.0000032 by norm_num [abs_of_pos]]
  norm_num

/-- C6 (amended): `convertMeasurement` is the identity when the units match and
otherwise multiplies by exactly 0.3048 or 3.28084; `convertMeasurement 1`
imperial→metric equals 0.3048; the forward-then-back round trip multiplies the
value by exactly 1.000000032, hence recovers the original within 1e-6 for
values of magnitude at most 31 (but not in general). -/
theorem convertMeasurement_properties :
    (∀ v : ℚ, ∀ u : MUnit, convertMeasurement v u u = v) ∧
    (∀ v : ℚ, convertMeasurement v MUnit.imperial MUnit.metric = v * 0.3048) ∧
    (∀ v : ℚ, convertMeasurement v MUnit.metric MUnit.imperial = v * 3.28084) ∧
    convertMeasurement 1 MUnit.imperial MUnit.metric = 0.3048 ∧
    (∀ v : ℚ, convertMeasurement (convertMeasurement v MUnit.imperial MUnit.metric)
        MUnit.metric MUnit.imperial = v * 1.000000032) ∧
    (∀ v : ℚ, |v| ≤ 31 →
      |convertMeasurement (convertMeasurement v MUnit.imperial MUnit.metric)
          MUnit.metric MUnit.imperial - v| ≤ 1/1000000) := by
  have hid : ∀ v : ℚ, ∀ u : MUnit, convertMeasurement v u u = v := by
    intro v u; simp [convertMeasurement]
  have him : ∀ v : ℚ, convertMeasurement v MUnit.imperial MUnit.metric = v * 0.3048 := by
    intro v; simp [convertMeasurement, feetToMeters, imperial_ne_metric]
  have hmi : ∀ v : ℚ, convertMeasurement v MUnit.metric MUnit.imperial = v * 3.28084 := by
    intro v; simp [convertMeasurement, metersToFeet, metric_ne_imperial]
  have hrt : ∀ v : ℚ, convertMeasurement (convertMeasurement v MUnit.imperial MUnit.metric)
      MUnit.metric MUnit.imperial = v * 1.000000032 := by
    intro v; rw [him, hmi]; norm_num; ring
  refine ⟨hid, him, hmi, by rw [him]; norm_num, hrt, ?_⟩
  intro v hv
  rw [hrt]
  have h1 : v * 1.000000032 - v = v * 0.000000032 := by ring_nf
  rw [h1, abs_mul]
  have h2 : |(0.000000032 : ℚ)| = 0.000000032 := by norm_num [abs_of_pos]
  rw [h2]
  calc |v| * (0.000000032 : ℚ) ≤ 31 * 0.000000032 := by
        exact mul_le_mul_of_nonneg_right hv (by norm_num)
    _ ≤ 1/1000000 := by norm_num

/-- C6 (amended) witness at value 30. -/
theorem convertMeasurement_properties_witness :
    |convertMeasurement (convertMeasurement 30 MUnit.imperial MUnit.metric)
        MUnit.metric MUnit.imperial - 30| ≤ 1/1000000 :=
  convertMeasurement_properties.2.2.2.2.2 30 (by norm_num)

/- Facts about digits and the decimal rendering. -/

lemma digitCh_isDigit {d : ℕ} (h : d < 10) : (digitCh d).isDigit = true := by
  interval_cases d <;> decide

lemma digitCh_toNat {d : ℕ} (h : d < 10) : (digitCh d).toNat = 48 + d := by
  interval_cases d <;> decide

lemma natReprDec_lt10 {n : ℕ} (h : n < 10) : natReprDec n = [digitCh n] := by
  rw [natReprDec]; simp [h]

lemma natReprDec_ge10 {n : ℕ} (h : ¬ n < 10) : natReprDec n = natReprDec (n / 10) ++ [digitCh (n % 10)] := by
  rw [natReprDec]; simp [h]

lemma natReprDec_ne_nil (n : ℕ) : natReprDec n ≠ [] := by
  by_cases h : n < 10
  · rw [natReprDec_lt10 h]; simp
  · rw [natReprDec_ge10 h]; simp

lemma natReprDec_all_digit (n : ℕ) : ∀ c ∈ natReprDec n, c.isDigit = true := by
  induction n using Nat.strong_induction_on with
  | _ n ih =>
    by_cases h : n < 10
    · rw [natReprDec_lt10 h]
      intro c hc
      rw [List.mem_singleton] at hc
      subst hc
      exact digitCh_isDigit h
    · rw [natReprDec_ge10 h]
      intro c hc
      rcases List.mem_append.mp hc with hc | hc
      · exact ih (n / 10) (Nat.div_lt_self (by omega) (by omega)) c hc
      · rw [List.mem_singleton] at hc
        subst hc
        exact digitCh_isDigit (Nat.mod_lt _ (by omega))

lemma digitsVal_singleton (c : Char) : digitsVal [c] = c.toNat - 48 := by
  simp [digitsVal]

lemma digitsVal_append_singleton (l : List Char) (c : Char) :
    digitsVal (l ++ [c]) = 10 * digitsVal l + (c.toNat - 48) := by
  simp [digitsVal, List.foldl_append]

lemma digitsVal_natReprDec (n : ℕ) : digitsVal (natReprDec n) = n := by
  induction n using Nat.strong_induction_on with
  | _ n ih =>
    by_cases h : n < 10
    · rw [natReprDec_lt10 h, digitsVal_singleton, digitCh_toNat h]
      omega
    · rw [natReprDec_ge10 h, digitsVal_append_singleton,
        ih (n / 10) (Nat.div_lt_self (by omega) (by omega)),
        digitCh_toNat (Nat.mod_lt _ (by omega))]
      omega

lemma matchVal_natReprDec (n : ℕ) : matchVal (some (natReprDec n, [])) = (n : ℚ) := by
  simp [matchVal, fracVal, digitsVal_natReprDec, show digitsVal [] = 0 from rfl]

lemma natRepr_small {n : ℕ} (h : n < 10 ^ 21) : natRepr n = natReprDec n := by
  unfold natRepr
  rw [if_pos h]

lemma natReprDec_pow10 (k : ℕ) : natReprDec (10 ^ k) = '1' :: List.replicate k '0' := by
  induction k with
  | zero =>
    rw [pow_zero, natReprDec_lt10 (by norm_num)]
    decide
  | succ k ih =>
    have h10 : ¬ 10 ^ (k + 1) < 10 := by
      have h1 : (10 : ℕ) ^ 1 ≤ 10 ^ (k + 1) := Nat.pow_le_pow_right (by norm_num) (by omega)
      simpa using h1
    have hdiv : 10 ^ (k + 1) / 10 = 10 ^ k := by
      rw [pow_succ]
      exact Nat.mul_div_cancel _ (by norm_num)
    have hmod : 10 ^ (k + 1) % 10 = 0 := by
      rw [pow_succ]
      exact Nat.mul_mod_left _ _
    rw [natReprDec_ge10 h10, hdiv, hmod, ih, List.replicate_succ',
      show digitCh 0 = '0' from by decide]
    simp

lemma natReprDec_21 : natReprDec 21 = ['2', '1'] := by
  rw [natReprDec_ge10 (by norm_num),
    show (21 : ℕ) / 10 = 2 from by norm_num, show (21 : ℕ) % 10 = 1 from by norm_num,
    natReprDec_lt10 (by norm_num)]
  decide


/- Facts about characters. -/

lemma digit_not_ws {c : Char} (h : c.isDigit = true) : isWSChar c = false := by
  cases hw : isWSChar c
  · rfl
  · exfalso
    have hw4 : c = ' ' ∨ c = '\t' ∨ c = '\n' ∨ c = '\r' := by
      simp only [isWSChar, Bool.or_eq_true, beq_iff_eq] at hw
      tauto
    rcases hw4 with rfl | rfl | rfl | rfl <;> simp at h

lemma digit_ne {c : Char} (h : c.isDigit = true) {x : Char} (hx : x.isDigit = false) :
    c ≠ x := by
  intro e
  subst e
  rw [h] at hx
  cases hx

/- takeWhile / dropWhile on runs. -/

lemma takeWhileAppendAll {p : Char → Bool} {l r : List Char} (h : ∀ c ∈ l, p c = true) :
    List.takeWhile p (l ++ r) = l ++ List.takeWhile p r := by
  induction l with
  | nil => simp
  | cons c cs ih =>
    have hc : p c = true := h c (by simp)
    simp only [List.cons_append, List.takeWhile_cons, hc, if_true]
    rw [ih fun d hd => h d (by simp [hd])]

lemma dropWhileAppendAll {p : Char → Bool} {l r : List Char} (h : ∀ c ∈ l, p c = true) :
    List.dropWhile p (l ++ r) = List.dropWhile p r := by
  induction l with
  | nil => simp
  | cons c cs ih =>
    have hc : p c = true := h c (by simp)
    simp only [List.cons_append, List.dropWhile_cons, hc, if_true]
    exact ih fun d hd => h d (by simp [hd])

lemma takeWhileHeadFalse {p : Char → Bool} {l : List Char}
    (h : ∀ c, l.head? = some c → p c = false) : List.takeWhile p l = [] := by
  cases l with
  | nil => rfl
  | cons c cs => simp [List.takeWhile_cons, h c rfl]

lemma dropWhileHeadFalse {p : Char → Bool} {l : List Char}
    (h : ∀ c, l.head? = some c → p c = false) : List.dropWhile p l = l := by
  cases l with
  | nil => rfl
  | cons c cs => simp [List.dropWhile_cons, h c rfl]

lemma takeWhileAllFalse {p : Char → Bool} {l : List Char}
    (h : ∀ c ∈ l, p c = false) : List.takeWhile p l = [] := by
  cases l with
  | nil => rfl
  | cons c cs => simp [List.takeWhile_cons, h c (by simp)]

lemma dropWhileAllFalse {p : Char → Bool} {l : List Char}
    (h : ∀ c ∈ l, p c = false) : List.dropWhile p l = l := by
  cases l with
  | nil => rfl
  | cons c cs => simp [List.dropWhile_cons, h c (by simp)]

lemma natRepr_1e21 : natRepr (10 ^ 21) = ['1', 'e', '+', '2', '1'] := by
  have hds : natReprDec (10 ^ 21) = '1' :: List.replicate 21 '0' := natReprDec_pow10 21
  unfold natRepr expRepr
  rw [if_neg (lt_irrefl _)]
  simp only [hds, List.reverse_cons, List.reverse_replicate, List.length_cons,
    List.length_replicate]
  rw [dropWhileAppendAll (fun c hc => by rw [List.eq_of_mem_replicate hc]; rfl)]
  norm_num [natReprDec_21]
  decide

/- jsTrim. -/

lemma jsTrim_eq_self {l : List Char}
    (h1 : ∀ c, l.head? = some c → isWSChar c = false)
    (h2 : ∀ c, l.getLast? = some c → isWSChar c = false) : jsTrim l = l := by
  unfold jsTrim
  rw [dropWhileHeadFalse h1]
  rw [dropWhileHeadFalse (by rw [List.head?_reverse]; exact h2)]
  exact List.reverse_reverse l

/- Scanner lemmas: behaviour of the regex model on digit runs. -/

lemma scan_cons_nondigit {s : List Char} {c : Char} {rest : List Char}
    (h : c.isDigit = false) : scanMatchStr s (c :: rest) = scanMatchStr s rest := by
  rw [scanMatchStr]
  simp [h]

lemma scan_skip_nondigit_run {s l r : List Char} (h : ∀ c ∈ l, c.isDigit = false) :
    scanMatchStr s (l ++ r) = scanMatchStr s r := by
  induction l with
  | nil => rfl
  | cons c cs ih =>
    rw [List.cons_append, scan_cons_nondigit (h c (by simp))]
    exact ih fun x hx => h x (by simp [hx])

lemma scan_none_of_nodigit {s l : List Char} (h : ∀ c ∈ l, c.isDigit = false) :
    scanMatchStr s l = none := by
  have h0 := scan_skip_nondigit_run (s := s) (r := []) h
  simpa using h0

lemma scan_digits_hit {s d r : List Char}
    (hd : ∀ c ∈ d, c.isDigit = true) (hne : d ≠ [])
    (hr : ∀ c, r.head? = some c → c.isDigit = false ∧ c ≠ '.')
    (hpre : List.isPrefixOf s r = true) :
    scanMatchStr s (d ++ r) = some (d, []) := by
  cases d with
  | nil => exact absurd rfl hne
  | cons c cs =>
    have hc : c.isDigit = true := hd c (by simp)
    have hcs : ∀ x ∈ cs, Char.isDigit x = true := fun x hx => hd x (by simp [hx])
    have ht2 : List.takeWhile Char.isDigit r = [] :=
      takeWhileHeadFalse fun x hx => (hr x hx).1
    have hd2 : List.dropWhile Char.isDigit r = r :=
      dropWhileHeadFalse fun x hx => (hr x hx).1
    have hdot : ¬ (r.head? = some ('.' : Char)) := fun hh => (hr _ hh).2 rfl
    rw [List.cons_append, scanMatchStr]
    simp [hc, List.takeWhile_cons, List.dropWhile_cons, takeWhileAppendAll hcs,
      dropWhileAppendAll hcs, ht2, hd2, hdot, hpre]

lemma scan_digits_skip {s d r : List Char}
    (hd : ∀ c ∈ d, c.isDigit = true)
    (hr : ∀ c, r.head? = some c → c.isDigit = false ∧ c ≠ '.')
    (hpre : List.isPrefixOf s r = false) :
    scanMatchStr s (d ++ r) = scanMatchStr s r := by
  induction d with
  | nil => rfl
  | cons c cs ih =>
    have hc : c.isDigit = true := hd c (by simp)
    have hcs : ∀ x ∈ cs, Char.isDigit x = true := fun x hx => hd x (by simp [hx])
    have ht2 : List.takeWhile Char.isDigit r = [] :=
      takeWhileHeadFalse fun x hx => (hr x hx).1
    have hd2 : List.dropWhile Char.isDigit r = r :=
      dropWhileHeadFalse fun x hx => (hr x hx).1
    have hdot : ¬ (r.head? = some ('.' : Char)) := fun hh => (hr _ hh).2 rfl
    rw [List.cons_append, scanMatchStr]
    simp only [hc, if_true, List.takeWhile_cons, List.dropWhile_cons,
      takeWhileAppendAll hcs, dropWhileAppendAll hcs, ht2, hd2]
    rw [if_neg hdot, if_neg (by rw [hpre]; exact Bool.false_ne_true)]
    exact ih hcs

/- Prefix and head helpers. -/

lemma headFacts_cons {x : Char} {t : List Char} (hx : x.isDigit = false) (hdot : x ≠ '.') :
    ∀ c, (x :: t).head? = some c → c.isDigit = false ∧ c ≠ '.' := by
  intro c hc
  rw [List.head?_cons, Option.some.injEq] at hc
  subst hc
  exact ⟨hx, hdot⟩

lemma isPrefixOf_single_self (x : Char) (t : List Char) :
    List.isPrefixOf [x] (x :: t) = true := by
  simp [List.isPrefixOf]

lemma isPrefixOf_pair_self (x y : Char) (t : List Char) :
    List.isPrefixOf [x, y] (x :: y :: t) = true := by
  simp [List.isPrefixOf]

lemma isPrefixOf_cons_ne {x y : Char} {xs t : List Char} (h : ¬ x = y) :
    List.isPrefixOf (x :: xs) (y :: t) = false := by
  simp [List.isPrefixOf, h]

lemma head_append_natReprDec_not_ws (n : ℕ) (r : List Char) :
    ∀ c, (natReprDec n ++ r).head? = some c → isWSChar c = false := by
  intro c hc
  obtain ⟨c0, cs, he⟩ := List.exists_cons_of_ne_nil (natReprDec_ne_nil n)
  rw [he, List.cons_append, List.head?_cons, Option.some.injEq] at hc
  rw [← hc]
  refine digit_not_ws (natReprDec_all_digit n c0 ?_)
  rw [he]
  exact List.mem_cons_self c0 cs

lemma intRepr_nonneg {i : ℤ} (h : 0 ≤ i) : intRepr i = natRepr i.toNat := by
  unfold intRepr
  rw [if_neg (not_lt.mpr h)]

/- Rounding facts. -/

lemma jsRound_abs_le (q : ℚ) : |(jsRound q : ℚ) - q| ≤ 1/2 := by
  unfold jsRound
  rw [abs_le]
  constructor
  · have h := Int.lt_floor_add_one (q + 1/2)
    push_cast at h ⊢
    linarith
  · have h := Int.floor_le (q + 1/2)
    push_cast at h ⊢
    linarith

lemma jsRound_nonneg {q : ℚ} (h : 0 ≤ q) : 0 ≤ jsRound q :=
  Int.floor_nonneg.mpr (by linarith)

/- Parsing the rendered shapes. -/

lemma trim_natReprDec_concat (n : ℕ) (mid : List Char) (x : Char) (hx : isWSChar x = false) :
    jsTrim (natReprDec n ++ (mid ++ [x])) = natReprDec n ++ (mid ++ [x]) := by
  refine jsTrim_eq_self (head_append_natReprDec_not_ws n _) ?_
  intro c hc
  rw [show natReprDec n ++ (mid ++ [x]) = (natReprDec n ++ mid) ++ [x] by simp,
    List.getLast?_concat, Option.some.injEq] at hc
  subst hc
  exact hx

lemma parseFI_inchesOnly (n : ℕ) (hn : n ≠ 0) :
    parseFeetInchesL (natReprDec n ++ [chDQ]) = JSNum.fin ((n : ℚ) / 12) := by
  have htrim : jsTrim (natReprDec n ++ [chDQ]) = natReprDec n ++ [chDQ] := by
    have h0 := trim_natReprDec_concat n [] chDQ (by decide)
    simpa using h0
  have hfeet : scanMatchStr [chSQ] (natReprDec n ++ [chDQ]) = none := by
    rw [scan_digits_skip (natReprDec_all_digit n)
      (headFacts_cons (by decide) (by decide)) (by decide)]
    decide
  have hinch : scanMatchStr [chDQ] (natReprDec n ++ [chDQ]) = some (natReprDec n, []) :=
    scan_digits_hit (natReprDec_all_digit n) (natReprDec_ne_nil n)
      (headFacts_cons (by decide) (by decide)) (by decide)
  have hpos : (0 : ℚ) < (n : ℚ) := by exact_mod_cast Nat.pos_of_ne_zero hn
  simp only [parseFeetInchesL, htrim, hfeet, hinch, matchVal_natReprDec]
  rw [if_pos ⟨by simp [matchVal], by simpa [matchVal] using hpos⟩]

lemma parseFI_feetOnly (n : ℕ) (hn : n ≠ 0) :
    parseFeetInchesL (natReprDec n ++ [chSQ]) = JSNum.fin ((n : ℚ)) := by
  have htrim : jsTrim (natReprDec n ++ [chSQ]) = natReprDec n ++ [chSQ] := by
    have h0 := trim_natReprDec_concat n [] chSQ (by decide)
    simpa using h0
  have hfeet : scanMatchStr [chSQ] (natReprDec n ++ [chSQ]) = some (natReprDec n, []) :=
    scan_digits_hit (natReprDec_all_digit n) (natReprDec_ne_nil n)
      (headFacts_cons (by decide) (by decide)) (by decide)
  have hinch : scanMatchStr [chDQ] (natReprDec n ++ [chSQ]) = none := by
    rw [scan_digits_skip (natReprDec_all_digit n)
      (headFacts_cons (by decide) (by decide)) (by decide)]
    decide
  have hne : ¬ ((n : ℚ) = 0) := by exact_mod_cast hn
  simp only [parseFeetInchesL, htrim, hfeet, hinch, matchVal_natReprDec]
  rw [if_neg (fun h => hne h.1), if_neg (fun h => hne h.1)]
  norm_num [matchVal]

lemma parseFI_both (f i : ℕ) (hf : f ≠ 0) :
    parseFeetInchesL (natReprDec f ++ chSQ :: ' ' :: (natReprDec i ++ [chDQ]))
      = JSNum.fin ((f : ℚ) + (i : ℚ) / 12) := by
  have htrim : jsTrim (natReprDec f ++ chSQ :: ' ' :: (natReprDec i ++ [chDQ]))
      = natReprDec f ++ chSQ :: ' ' :: (natReprDec i ++ [chDQ]) := by
    have h0 := trim_natReprDec_concat f (chSQ :: ' ' :: natReprDec i) chDQ (by decide)
    simpa using h0
  have hfeet : scanMatchStr [chSQ] (natReprDec f ++ chSQ :: ' ' :: (natReprDec i ++ [chDQ]))
      = some (natReprDec f, []) :=
    scan_digits_hit (natReprDec_all_digit f) (natReprDec_ne_nil f)
      (headFacts_cons (by decide) (by decide)) (isPrefixOf_single_self _ _)
  have hinch : scanMatchStr [chDQ] (natReprDec f ++ chSQ :: ' ' :: (natReprDec i ++ [chDQ]))
      = some (natReprDec i, []) := by
    rw [scan_digits_skip (natReprDec_all_digit f)
      (headFacts_cons (by decide) (by decide)) (isPrefixOf_cons_ne (by decide))]
    rw [scan_cons_nondigit (by decide), scan_cons_nondigit (by decide)]
    exact scan_digits_hit (natReprDec_all_digit i) (natReprDec_ne_nil i)
      (headFacts_cons (by decide) (by decide)) (by decide)
  have hne : ¬ ((f : ℚ) = 0) := by exact_mod_cast hf
  simp only [parseFeetInchesL, htrim, hfeet, hinch, matchVal_natReprDec]
  rw [if_neg (fun h => hne h.1), if_neg (fun h => hne h.1)]

lemma parseMC_cmOnly (n : ℕ) (hn : n ≠ 0) :
    parseMetersCmL (natReprDec n ++ ['c', 'm']) = JSNum.fin ((n : ℚ) / 100) := by
  have htrim : jsTrim (natReprDec n ++ ['c', 'm']) = natReprDec n ++ ['c', 'm'] := by
    have h0 := trim_natReprDec_concat n ['c'] 'm' (by decide)
    simpa using h0
  have hm : scanMatchStr ['m'] (natReprDec n ++ ['c', 'm']) = none := by
    rw [scan_digits_skip (natReprDec_all_digit n)
      (headFacts_cons (by decide) (by decide)) (by decide)]
    decide
  have hc : scanMatchStr ['c', 'm'] (natReprDec n ++ ['c', 'm']) = some (natReprDec n, []) :=
    scan_digits_hit (natReprDec_all_digit n) (natReprDec_ne_nil n)
      (headFacts_cons (by decide) (by decide)) (by decide)
  have hpos : (0 : ℚ) < (n : ℚ) := by exact_mod_cast Nat.pos_of_ne_zero hn
  simp only [parseMetersCmL, htrim, hm, hc, matchVal_natReprDec]
  rw [if_pos ⟨by simp [matchVal], by simpa [matchVal] using hpos⟩]

lemma parseMC_mOnly (n : ℕ) (hn : n ≠ 0) :
    parseMetersCmL (natReprDec n ++ ['m']) = JSNum.fin ((n : ℚ)) := by
  have htrim : jsTrim (natReprDec n ++ ['m']) = natReprDec n ++ ['m'] := by
    have h0 := trim_natReprDec_concat n [] 'm' (by decide)
    simpa using h0
  have hm : scanMatchStr ['m'] (natReprDec n ++ ['m']) = some (natReprDec n, []) :=
    scan_digits_hit (natReprDec_all_digit n) (natReprDec_ne_nil n)
      (headFacts_cons (by decide) (by decide)) (by decide)
  have hc : scanMatchStr ['c', 'm'] (natReprDec n ++ ['m']) = none := by
    rw [scan_digits_skip (natReprDec_all_digit n)
      (headFacts_cons (by decide) (by decide)) (by decide)]
    decide
  have hne : ¬ ((n : ℚ) = 0) := by exact_mod_cast hn
  simp only [parseMetersCmL, htrim, hm, hc, matchVal_natReprDec]
  rw [if_neg (fun h => hne h.1), if_neg (fun h => hne h.1)]
  norm_num [matchVal]

lemma parseMC_both (m c : ℕ) (hm0 : m ≠ 0) :
    parseMetersCmL (natReprDec m ++ 'm' :: ' ' :: (natReprDec c ++ ['c', 'm']))
      = JSNum.fin ((m : ℚ) + (c : ℚ) / 100) := by
  have htrim : jsTrim (natReprDec m ++ 'm' :: ' ' :: (natReprDec c ++ ['c', 'm']))
      = natReprDec m ++ 'm' :: ' ' :: (natReprDec c ++ ['c', 'm']) := by
    have h0 := trim_natReprDec_concat m ('m' :: ' ' :: (natReprDec c ++ ['c'])) 'm' (by decide)
    simpa using h0
  have hmm : scanMatchStr ['m'] (natReprDec m ++ 'm' :: ' ' :: (natReprDec c ++ ['c', 'm']))
      = some (natReprDec m, []) :=
    scan_digits_hit (natReprDec_all_digit m) (natReprDec_ne_nil m)
      (headFacts_cons (by decide) (by decide)) (isPrefixOf_single_self _ _)
  have hcm : scanMatchStr ['c', 'm'] (natReprDec m ++ 'm' :: ' ' :: (natReprDec c ++ ['c', 'm']))
      = some (natReprDec c, []) := by
    rw [scan_digits_skip (natReprDec_all_digit m)
      (headFacts_cons (by decide) (by decide)) (isPrefixOf_cons_ne (by decide))]
    rw [scan_cons_nondigit (by decide), scan_cons_nondigit (by decide)]
    exact scan_digits_hit (natReprDec_all_digit c) (natReprDec_ne_nil c)
      (headFacts_cons (by decide) (by decide)) (by decide)
  have hne : ¬ ((m : ℚ) = 0) := by exact_mod_cast hm0
  simp only [parseMetersCmL, htrim, hmm, hcm, matchVal_natReprDec]
  rw [if_neg (fun h => hne h.1), if_neg (fun h => hne h.1)]

lemma parseFI_zeroInches : parseFeetInchesL ['0', chDQ] = JSNum.fin 0 := by
  have hpf : jsParseFloatL ['0', chDQ] = JSNum.fin 0 := by
    rw [jsParseFloatL, show jsParseFloatTok ['0', chDQ] = FloatTok.num true ['0'] [] 0 from
      by decide]
    norm_num [tokVal, fracVal, show digitsVal ['0'] = 0 from by decide,
      show digitsVal [] = 0 from rfl]
  simp only [parseFeetInchesL,
    show jsTrim ['0', chDQ] = ['0', chDQ] from by decide,
    show scanMatchStr [chSQ] ['0', chDQ] = none from by decide,
    show scanMatchStr [chDQ] ['0', chDQ] = some (['0'], []) from by decide, hpf]
  norm_num [matchVal, fracVal, show digitsVal ['0'] = 0 from by decide,
    show digitsVal [] = 0 from rfl]

lemma parseMC_zeroCm : parseMetersCmL ['0', 'c', 'm'] = JSNum.fin 0 := by
  have hpf : jsParseFloatL ['0', 'c', 'm'] = JSNum.fin 0 := by
    rw [jsParseFloatL, show jsParseFloatTok ['0', 'c', 'm'] = FloatTok.num true ['0'] [] 0 from
      by decide]
    norm_num [tokVal, fracVal, show digitsVal ['0'] = 0 from by decide,
      show digitsVal [] = 0 from rfl]
  simp only [parseMetersCmL,
    show jsTrim ['0', 'c', 'm'] = ['0', 'c', 'm'] from by decide,
    show scanMatchStr ['m'] ['0', 'c', 'm'] = none from by decide,
    show scanMatchStr ['c', 'm'] ['0', 'c', 'm'] = some (['0'], []) from by decide, hpf]
  norm_num [matchVal, fracVal, show digitsVal ['0'] = 0 from by decide,
    show digitsVal [] = 0 from rfl]

lemma intRepr_zero : intRepr 0 = ['0'] := by
  rw [intRepr_nonneg (le_refl 0)]
  rw [show ((0 : ℤ).toNat) = 0 from rfl, natRepr_small (by norm_num),
    natReprDec_lt10 (by norm_num)]
  decide

lemma formatImperial_eq (x : ℚ) (hx : 0 ≤ x) :
    formatMeasurementL x MUnit.imperial =
      (if (⌊x⌋ : ℤ) = 0 then intRepr (jsRound (x * 12 - 12 * (⌊x⌋ : ℚ))) ++ [chDQ]
       else if jsRound (x * 12 - 12 * (⌊x⌋ : ℚ)) = 0 then intRepr ⌊x⌋ ++ [chSQ]
       else intRepr ⌊x⌋ ++
         chSQ :: ' ' :: (intRepr (jsRound (x * 12 - 12 * (⌊x⌋ : ℚ))) ++ [chDQ])) := by
  have h1 : x * 12 / 12 = x := by field_simp
  have h2 : jsFmod (x * 12) 12 = x * 12 - 12 * (⌊x⌋ : ℚ) := by
    unfold jsFmod ratTrunc
    rw [h1, if_pos hx]
  simp only [formatMeasurementL, h1, h2]
  simp only [List.append_assoc, List.cons_append, List.nil_append]

lemma parse_format_imperial (x : ℚ) (hx : 0 ≤ x) (hlt : x < 10 ^ 21) :
    ∃ q : ℚ, parseFeetInchesL (formatMeasurementL x MUnit.imperial) = JSNum.fin q ∧
      |q - x| ≤ 1/12 := by
  have hfmt := formatImperial_eq x hx
  have hF0 : (0 : ℤ) ≤ ⌊x⌋ := Int.floor_nonneg.mpr hx
  have hfl : (⌊x⌋ : ℚ) ≤ x := Int.floor_le x
  have hfu : x < (⌊x⌋ : ℚ) + 1 := Int.lt_floor_add_one x
  have hI0 : (0 : ℤ) ≤ jsRound (x * 12 - 12 * (⌊x⌋ : ℚ)) := jsRound_nonneg (by linarith)
  have hIb := jsRound_abs_le (x * 12 - 12 * (⌊x⌋ : ℚ))
  rw [abs_le] at hIb
  have hI13 : jsRound (x * 12 - 12 * (⌊x⌋ : ℚ)) < 13 := by
    apply Int.floor_lt.mpr
    push_cast
    linarith
  set F : ℤ := ⌊x⌋ with hFdef
  set I : ℤ := jsRound (x * 12 - 12 * (F : ℚ)) with hIdef
  have hFsmall : F.toNat < 10 ^ 21 := by
    have h1 : (F : ℚ) < 10 ^ 21 := lt_of_le_of_lt hfl hlt
    have h2 : F < 10 ^ 21 := by exact_mod_cast h1
    have h3 : (F.toNat : ℤ) < 10 ^ 21 := by rw [Int.toNat_of_nonneg hF0]; exact h2
    exact_mod_cast h3
  have hIsmall : I.toNat < 10 ^ 21 := by
    have h3 : (I.toNat : ℤ) < 13 := by rw [Int.toNat_of_nonneg hI0]; exact hI13
    have h4 : I.toNat < 13 := by exact_mod_cast h3
    calc I.toNat < 13 := h4
      _ < 10 ^ 21 := by norm_num
  by_cases hF : F = 0
  · by_cases hI : I = 0
    · refine ⟨0, ?_, ?_⟩
      · rw [hfmt, if_pos hF, hI, intRepr_zero]
        exact parseFI_zeroInches
      · rw [hF] at hIb
        rw [hI] at hIb
        push_cast at hIb
        rw [abs_le]
        constructor <;> linarith
    · refine ⟨(I.toNat : ℚ) / 12, ?_, ?_⟩
      · rw [hfmt, if_pos hF, intRepr_nonneg hI0, natRepr_small hIsmall]
        exact parseFI_inchesOnly I.toNat (by omega)
      · have hcast : ((I.toNat : ℕ) : ℚ) = (I : ℚ) := by
          exact_mod_cast Int.toNat_of_nonneg hI0
        rw [hcast]
        rw [hF] at hIb
        push_cast at hIb
        rw [abs_le]
        constructor <;> linarith
  · by_cases hI : I = 0
    · refine ⟨(F.toNat : ℚ), ?_, ?_⟩
      · rw [hfmt, if_neg hF, if_pos hI, intRepr_nonneg hF0, natRepr_small hFsmall]
        exact parseFI_feetOnly F.toNat (by omega)
      · have hcast : ((F.toNat : ℕ) : ℚ) = (F : ℚ) := by
          exact_mod_cast Int.toNat_of_nonneg hF0
        rw [hcast]
        rw [hI] at hIb
        push_cast at hIb
        rw [abs_le]
        constructor <;> linarith
    · refine ⟨(F.toNat : ℚ) + (I.toNat : ℚ) / 12, ?_, ?_⟩
      · rw [hfmt, if_neg hF, if_neg hI, intRepr_nonneg hF0, intRepr_nonneg hI0,
          natRepr_small hFsmall, natRepr_small hIsmall]
        exact parseFI_both F.toNat I.toNat (by omega)
      · have hcastF : ((F.toNat : ℕ) : ℚ) = (F : ℚ) := by
          exact_mod_cast Int.toNat_of_nonneg hF0
        have hcastI : ((I.toNat : ℕ) : ℚ) = (I : ℚ) := by
          exact_mod_cast Int.toNat_of_nonneg hI0
        rw [hcastF, hcastI]
        rw [abs_le]
        constructor <;> linarith

lemma formatMetric_eq (x : ℚ) :
    formatMeasurementL x MUnit.metric =
      (if 1 ≤ x then
        (if jsRound ((x - (⌊x⌋ : ℚ)) * 100) = 0 then intRepr ⌊x⌋ ++ ['m']
         else intRepr ⌊x⌋ ++
           'm' :: ' ' :: (intRepr (jsRound ((x - (⌊x⌋ : ℚ)) * 100)) ++ ['c', 'm']))
       else intRepr (jsRound (x * 100)) ++ ['c', 'm']) := by
  simp only [formatMeasurementL]
  simp only [List.append_assoc, List.cons_append, List.nil_append]

lemma parse_format_metric (x : ℚ) (hx : 0 ≤ x) (hlt : x < 10 ^ 21) :
    ∃ q : ℚ, parseMetersCmL (formatMeasurementL x MUnit.metric) = JSNum.fin q ∧
      |q - x| ≤ 1/100 := by
  have hfmt := formatMetric_eq x
  by_cases h1x : (1 : ℚ) ≤ x
  · have hM1 : (1 : ℤ) ≤ ⌊x⌋ := Int.le_floor.mpr (by exact_mod_cast h1x)
    have hfl : (⌊x⌋ : ℚ) ≤ x := Int.floor_le x
    have hfu : x < (⌊x⌋ : ℚ) + 1 := Int.lt_floor_add_one x
    have hC0 : (0 : ℤ) ≤ jsRound ((x - (⌊x⌋ : ℚ)) * 100) := jsRound_nonneg (by linarith)
    have hCb := jsRound_abs_le ((x - (⌊x⌋ : ℚ)) * 100)
    rw [abs_le] at hCb
    have hC101 : jsRound ((x - (⌊x⌋ : ℚ)) * 100) < 101 := by
      apply Int.floor_lt.mpr
      push_cast
      linarith
    set M : ℤ := ⌊x⌋ with hMdef
    set C : ℤ := jsRound ((x - (M : ℚ)) * 100) with hCdef
    have hMsmall : M.toNat < 10 ^ 21 := by
      have h1 : (M : ℚ) < 10 ^ 21 := lt_of_le_of_lt hfl hlt
      have h2 : M < 10 ^ 21 := by exact_mod_cast h1
      have h3 : (M.toNat : ℤ) < 10 ^ 21 := by rw [Int.toNat_of_nonneg (by omega : (0:ℤ) ≤ M)]; exact h2
      exact_mod_cast h3
    have hCsmall : C.toNat < 10 ^ 21 := by
      have h3 : (C.toNat : ℤ) < 101 := by rw [Int.toNat_of_nonneg hC0]; exact hC101
      have h4 : C.toNat < 101 := by exact_mod_cast h3
      calc C.toNat < 101 := h4
        _ < 10 ^ 21 := by norm_num
    have hcastM : ((M.toNat : ℕ) : ℚ) = (M : ℚ) := by
      exact_mod_cast Int.toNat_of_nonneg (by omega)
    by_cases hC : C = 0
    · refine ⟨(M.toNat : ℚ), ?_, ?_⟩
      · rw [hfmt, if_pos h1x, if_pos hC, intRepr_nonneg (by omega),
          natRepr_small hMsmall]
        exact parseMC_mOnly M.toNat (by omega)
      · rw [hcastM]
        rw [hC] at hCb
        push_cast at hCb
        rw [abs_le]
        constructor <;> linarith
    · refine ⟨(M.toNat : ℚ) + (C.toNat : ℚ) / 100, ?_, ?_⟩
      · rw [hfmt, if_pos h1x, if_neg hC, intRepr_nonneg (by omega), intRepr_nonneg hC0,
          natRepr_small hMsmall, natRepr_small hCsmall]
        exact parseMC_both M.toNat C.toNat (by omega)
      · have hcastC : ((C.toNat : ℕ) : ℚ) = (C : ℚ) := by
          exact_mod_cast Int.toNat_of_nonneg hC0
        rw [hcastM, hcastC]
        rw [abs_le]
        constructor <;> linarith
  · have hC0 : (0 : ℤ) ≤ jsRound (x * 100) := jsRound_nonneg (by linarith)
    have hCb := jsRound_abs_le (x * 100)
    rw [abs_le] at hCb
    have hC101 : jsRound (x * 100) < 101 := by
      apply Int.floor_lt.mpr
      push_cast
      nlinarith [not_le.mp h1x]
    set C : ℤ := jsRound (x * 100) with hCdef
    have hCsmall : C.toNat < 10 ^ 21 := by
      have h3 : (C.toNat : ℤ) < 101 := by rw [Int.toNat_of_nonneg hC0]; exact hC101
      have h4 : C.toNat < 101 := by exact_mod_cast h3
      calc C.toNat < 101 := h4
        _ < 10 ^ 21 := by norm_num
    by_cases hC : C = 0
    · refine ⟨0, ?_, ?_⟩
      · rw [hfmt, if_neg h1x, hC, intRepr_zero]
        exact parseMC_zeroCm
      · rw [hC] at hCb
        push_cast at hCb
        rw [abs_le]
        constructor <;> linarith
    · refine ⟨(C.toNat : ℚ) / 100, ?_, ?_⟩
      · rw [hfmt, if_neg h1x, intRepr_nonneg hC0, natRepr_small hCsmall]
        exact parseMC_cmOnly C.toNat (by omega)
      · have hcastC : ((C.toNat : ℕ) : ℚ) = (C : ℚ) := by
          exact_mod_cast Int.toNat_of_nonneg hC0
        rw [hcastC]
        rw [abs_le]
        constructor <;> linarith

/- String-level helpers. -/

lemma str_ext {s t : String} (h : s.data = t.data) : s = t := by
  obtain ⟨a⟩ := s
  obtain ⟨b⟩ := t
  exact congrArg String.mk (by simpa using h)

lemma str_data_append (s t : String) : (s ++ t).data = s.data ++ t.data := by
  obtain ⟨a⟩ := s
  obtain ⟨b⟩ := t
  rfl

lemma format_str_eq {v : ℚ} {u : MUnit} {l : List Char}
    (h : formatMeasurementL v u = l) {t : String} (ht : t.data = l) :
    formatMeasurement v u = t := by
  refine str_ext ?_
  rw [show (formatMeasurement v u).data = formatMeasurementL v u from rfl, h]
  exact ht.symm

lemma data_nat_dq (n : ℕ) : (strOfNat n ++ "\"" : String).data = natRepr n ++ [chDQ] := by
  rw [str_data_append, show ("\"" : String).data = [chDQ] from by decide,
    show (strOfNat n).data = natRepr n from rfl]

lemma data_nat_sq (n : ℕ) : (strOfNat n ++ "'" : String).data = natRepr n ++ [chSQ] := by
  rw [str_data_append, show ("'" : String).data = [chSQ] from by decide,
    show (strOfNat n).data = natRepr n from rfl]

lemma data_nat_sq_nat_dq (f i : ℕ) :
    (strOfNat f ++ "' " ++ strOfNat i ++ "\"" : String).data
      = natRepr f ++ chSQ :: ' ' :: (natRepr i ++ [chDQ]) := by
  rw [str_data_append, str_data_append, str_data_append,
    show ("' " : String).data = [chSQ, ' '] from by decide,
    show ("\"" : String).data = [chDQ] from by decide,
    show (strOfNat f).data = natRepr f from rfl, show (strOfNat i).data = natRepr i from rfl]
  simp

lemma data_nat_cm (n : ℕ) : (strOfNat n ++ "cm" : String).data = natRepr n ++ ['c', 'm'] := by
  rw [str_data_append, show ("cm" : String).data = ['c', 'm'] from by decide,
    show (strOfNat n).data = natRepr n from rfl]

lemma data_nat_m (n : ℕ) : (strOfNat n ++ "m" : String).data = natRepr n ++ ['m'] := by
  rw [str_data_append, show ("m" : String).data = ['m'] from by decide,
    show (strOfNat n).data = natRepr n from rfl]

lemma data_nat_m_nat_cm (m c : ℕ) :
    (strOfNat m ++ "m " ++ strOfNat c ++ "cm" : String).data
      = natRepr m ++ 'm' :: ' ' :: (natRepr c ++ ['c', 'm']) := by
  rw [str_data_append, str_data_append, str_data_append,
    show ("m " : String).data = ['m', ' '] from by decide,
    show ("cm" : String).data = ['c', 'm'] from by decide,
    show (strOfNat m).data = natRepr m from rfl, show (strOfNat c).data = natRepr c from rfl]
  simp

/- The value 1e21, where JS switches to exponential rendering. -/

lemma floor_1e21 : (⌊(10 : ℚ) ^ 21⌋ : ℤ) = 10 ^ 21 := by
  rw [show ((10 : ℚ) ^ 21) = (((10 : ℤ) ^ 21 : ℤ) : ℚ) from by push_cast; ring]
  exact Int.floor_intCast _

lemma toNat_1e21 : ((10 : ℤ) ^ 21).toNat = 10 ^ 21 := by
  rw [show ((10 : ℤ) ^ 21) = ((10 ^ 21 : ℕ) : ℤ) from by push_cast]
  simp

lemma formatImperial_1e21 :
    formatMeasurementL ((10 : ℚ) ^ 21) MUnit.imperial = ['1', 'e', '+', '2', '1', chSQ] := by
  have hfmt := formatImperial_eq ((10 : ℚ) ^ 21) (by norm_num)
  rw [hfmt, floor_1e21]
  push_cast
  norm_num [jsRound]
  rw [intRepr_nonneg (by norm_num),
    show (Int.toNat 1000000000000000000000) = 10 ^ 21 by rw [show ((10:ℕ) ^ 21) = 1000000000000000000000 by norm_num]; rfl,
    natRepr_1e21]
  decide

lemma formatMetric_1e21 :
    formatMeasurementL ((10 : ℚ) ^ 21) MUnit.metric = ['1', 'e', '+', '2', '1', 'm'] := by
  have hfmt := formatMetric_eq ((10 : ℚ) ^ 21)
  rw [hfmt, floor_1e21]
  push_cast
  norm_num [jsRound]
  rw [intRepr_nonneg (by norm_num),
    show (Int.toNat 1000000000000000000000) = 10 ^ 21 by rw [show ((10:ℕ) ^ 21) = 1000000000000000000000 by norm_num]; rfl,
    natRepr_1e21]
  decide

lemma parseFI_1e21 : parseFeetInchesL ['1', 'e', '+', '2', '1', chSQ] = JSNum.fin 21 := by
  simp [parseFeetInchesL,
    show jsTrim ['1', 'e', '+', '2', '1', chSQ] = ['1', 'e', '+', '2', '1', chSQ] from
      by decide,
    show scanMatchStr [chSQ] ['1', 'e', '+', '2', '1', chSQ] = some (['2', '1'], []) from
      by decide,
    show scanMatchStr [chDQ] ['1', 'e', '+', '2', '1', chSQ] = none from by decide,
    matchVal, fracVal, show digitsVal ['2', '1'] = 21 from by decide,
    show digitsVal [] = 0 from rfl]

lemma parseMC_1e21 : parseMetersCmL ['1', 'e', '+', '2', '1', 'm'] = JSNum.fin 21 := by
  simp [parseMetersCmL,
    show jsTrim ['1', 'e', '+', '2', '1', 'm'] = ['1', 'e', '+', '2', '1', 'm'] from
      by decide,
    show scanMatchStr ['m'] ['1', 'e', '+', '2', '1', 'm'] = some (['2', '1'], []) from
      by decide,
    show scanMatchStr ['c', 'm'] ['1', 'e', '+', '2', '1', 'm'] = none from by decide,
    matchVal, fracVal, show digitsVal ['2', '1'] = 21 from by decide,
    show digitsVal [] = 0 from rfl]

/-- C8 counterexample: at the value 1e21 JS renders the measurement with the
integral part in exponential notation (`"1e+21'"` and `"1e+21m"`); the
parsers' regexes then capture only the digits `21` directly before the unit
marker, so the round trip returns 21, missing 1e21 by far more than the
claimed tolerances. -/
theorem parse_format_roundtrip_counterexample :
    parseFeetInches (formatMeasurement ((10 : ℚ) ^ 21) MUnit.imperial) = JSNum.fin 21 ∧
    parseMetersCm (formatMeasurement ((10 : ℚ) ^ 21) MUnit.metric) = JSNum.fin 21 ∧
    ¬ (∃ q : ℚ, parseFeetInches (formatMeasurement ((10 : ℚ) ^ 21) MUnit.imperial)
        = JSNum.fin q ∧ |q - (10 : ℚ) ^ 21| ≤ 1/12) ∧
    ¬ (∃ q : ℚ, parseMetersCm (formatMeasurement ((10 : ℚ) ^ 21) MUnit.metric)
        = JSNum.fin q ∧ |q - (10 : ℚ) ^ 21| ≤ 1/100) := by
  have h1 : parseFeetInches (formatMeasurement ((10 : ℚ) ^ 21) MUnit.imperial)
      = JSNum.fin 21 := by
    rw [show parseFeetInches (formatMeasurement ((10 : ℚ) ^ 21) MUnit.imperial)
        = parseFeetInchesL (formatMeasurementL ((10 : ℚ) ^ 21) MUnit.imperial) from rfl,
      formatImperial_1e21]
    exact parseFI_1e21
  have h2 : parseMetersCm (formatMeasurement ((10 : ℚ) ^ 21) MUnit.metric)
      = JSNum.fin 21 := by
    rw [show parseMetersCm (formatMeasurement ((10 : ℚ) ^ 21) MUnit.metric)
        = parseMetersCmL (formatMeasurementL ((10 : ℚ) ^ 21) MUnit.metric) from rfl,
      formatMetric_1e21]
    exact parseMC_1e21
  refine ⟨h1, h2, ?_, ?_⟩
  · rintro ⟨q, hq, hb⟩
    rw [h1] at hq
    injection hq with he
    rw [← he, abs_of_nonpos (by norm_num)] at hb
    norm_num at hb
  · rintro ⟨q, hq, hb⟩
    rw [h2] at hq
    injection hq with he
    rw [← he, abs_of_nonpos (by norm_num)] at hb
    norm_num at hb

/-- C8 (amended): for every nonnegative value below 1e21 (the threshold at
which JS switches to exponential number rendering), parsing the formatted
string recovers the value within the minimum resolvable unit: 1/12 foot for
imperial and 1 cm (0.01 m) for metric. -/
theorem parse_format_roundtrip (x : ℚ) (hx : 0 ≤ x) (hlt : x < 10 ^ 21) :
    (∃ q : ℚ, parseFeetInches (formatMeasurement x MUnit.imperial) = JSNum.fin q ∧
      |q - x| ≤ 1/12) ∧
    (∃ q : ℚ, parseMetersCm (formatMeasurement x MUnit.metric) = JSNum.fin q ∧
      |q - x| ≤ 1/100) :=
  ⟨parse_format_imperial x hx hlt, parse_format_metric x hx hlt⟩

/-- C8 (amended) witness at the value 5.25 feet / meters. -/
theorem parse_format_roundtrip_witness :
    ∃ q : ℚ, parseFeetInches (formatMeasurement (21/4) MUnit.imperial) = JSNum.fin q ∧
      |q - 21/4| ≤ 1/12 :=
  (parse_format_roundtrip (21/4) (by norm_num) (by norm_num)).1

/-- C7 counterexample: at the value 1e21 the rendered imperial string is
`"1e+21'"`: its integral part is in exponential notation, not a decimal
numeral, so the output is not of the claimed shape `I"`, `F'` or `F' I"` for
any decimal digit strings. -/
theorem formatMeasurement_shapes_counterexample :
    formatMeasurement ((10 : ℚ) ^ 21) MUnit.imperial = ("1e+21'") ∧
    ¬ ((∃ i : ℕ, formatMeasurement ((10 : ℚ) ^ 21) MUnit.imperial
          = (⟨natReprDec i⟩ : String) ++ "\"") ∨
       (∃ f : ℕ, formatMeasurement ((10 : ℚ) ^ 21) MUnit.imperial
          = (⟨natReprDec f⟩ : String) ++ "'") ∨
       (∃ f i : ℕ, formatMeasurement ((10 : ℚ) ^ 21) MUnit.imperial
          = (⟨natReprDec f⟩ : String) ++ "' " ++ (⟨natReprDec i⟩ : String) ++ "\"")) := by
  have hs : formatMeasurement ((10 : ℚ) ^ 21) MUnit.imperial = ("1e+21'") := by
    refine str_ext ?_
    rw [show (formatMeasurement ((10 : ℚ) ^ 21) MUnit.imperial).data
        = formatMeasurementL ((10 : ℚ) ^ 21) MUnit.imperial from rfl, formatImperial_1e21]
    decide
  refine ⟨hs, ?_⟩
  rintro (⟨i, hi⟩ | ⟨f, hf⟩ | ⟨f, i, hfi⟩)
  · have hd := congrArg String.data (hi.symm.trans hs)
    rw [str_data_append,
      show ((⟨natReprDec i⟩ : String)).data = natReprDec i from rfl,
      show ("\"" : String).data = [chDQ] from by decide,
      show (("1e+21'" : String)).data = ['1', 'e', '+', '2', '1', chSQ] from by decide] at hd
    have hmem : chDQ ∈ natReprDec i ++ [chDQ] := by simp
    rw [hd] at hmem
    exact absurd hmem (by decide)
  · have hd := congrArg String.data (hf.symm.trans hs)
    rw [str_data_append,
      show ((⟨natReprDec f⟩ : String)).data = natReprDec f from rfl,
      show ("'" : String).data = [chSQ] from by decide,
      show (("1e+21'" : String)).data = ['1', 'e', '+', '2', '1', chSQ] from by decide] at hd
    have hmem : ('e' : Char) ∈ natReprDec f ++ [chSQ] := by rw [hd]; decide
    rcases List.mem_append.mp hmem with hm | hm
    · exact absurd (natReprDec_all_digit f _ hm) (by decide)
    · rw [List.mem_singleton] at hm
      exact absurd hm (by decide)
  · have hd := congrArg String.data (hfi.symm.trans hs)
    rw [str_data_append, str_data_append, str_data_append,
      show ((⟨natReprDec f⟩ : String)).data = natReprDec f from rfl,
      show ((⟨natReprDec i⟩ : String)).data = natReprDec i from rfl,
      show ("' " : String).data = [chSQ, ' '] from by decide,
      show ("\"" : String).data = [chDQ] from by decide,
      show (("1e+21'" : String)).data = ['1', 'e', '+', '2', '1', chSQ] from by decide] at hd
    simp only [List.append_assoc, List.cons_append, List.nil_append] at hd
    have hmem : chDQ ∈ natReprDec f ++ chSQ :: ' ' :: (natReprDec i ++ [chDQ]) := by simp
    rw [hd] at hmem
    exact absurd hmem (by decide)

/-- C7 (amended): for every nonnegative value below 1e21 (the threshold at
which JS switches to exponential number rendering), `formatMeasurement`
renders imperial values in one of the decimal shapes `I"`, `F'` (nonzero
feet) or `F' I"` (nonzero feet and nonzero inches — it never emits `0"`
alongside nonzero feet), with the rendered total inches within half an inch
of the exact value; metric values render as `Ccm`, `Mm` or `Mm Ccm` similarly
within half a centimetre; and concretely
`formatMeasurement 5.25 imperial = "5' 3\""`,
`formatMeasurement 5 imperial = "5'"`. -/
theorem formatMeasurement_shapes (v : ℚ) (hv : 0 ≤ v) (hlt : v < 10 ^ 21) :
    ((∃ i : ℕ, i < 10 ^ 21 ∧ formatMeasurement v MUnit.imperial = strOfNat i ++ "\"" ∧
        |(i : ℚ) - v * 12| ≤ 1/2) ∨
     (∃ f : ℕ, f < 10 ^ 21 ∧ f ≠ 0 ∧
        formatMeasurement v MUnit.imperial = strOfNat f ++ "'" ∧
        |12 * (f : ℚ) - v * 12| ≤ 1/2) ∨
     (∃ f i : ℕ, f < 10 ^ 21 ∧ i < 10 ^ 21 ∧ f ≠ 0 ∧ i ≠ 0 ∧
        formatMeasurement v MUnit.imperial = strOfNat f ++ "' " ++ strOfNat i ++ "\"" ∧
        |12 * (f : ℚ) + (i : ℚ) - v * 12| ≤ 1/2)) ∧
    ((∃ c : ℕ, c < 10 ^ 21 ∧ formatMeasurement v MUnit.metric = strOfNat c ++ "cm" ∧
        |(c : ℚ) - v * 100| ≤ 1/2) ∨
     (∃ m : ℕ, m < 10 ^ 21 ∧ m ≠ 0 ∧
        formatMeasurement v MUnit.metric = strOfNat m ++ "m" ∧
        |100 * (m : ℚ) - v * 100| ≤ 1/2) ∨
     (∃ m c : ℕ, m < 10 ^ 21 ∧ c < 10 ^ 21 ∧ m ≠ 0 ∧ c ≠ 0 ∧
        formatMeasurement v MUnit.metric = strOfNat m ++ "m " ++ strOfNat c ++ "cm" ∧
        |100 * (m : ℚ) + (c : ℚ) - v * 100| ≤ 1/2)) ∧
    formatMeasurement (21/4) MUnit.imperial = ("5' 3\"") ∧
    formatMeasurement 5 MUnit.imperial = ("5'") := by
  refine ⟨?_, ?_, ?_, ?_⟩
  · -- imperial shapes
    have hfmt := formatImperial_eq v hv
    have hF0 : (0 : ℤ) ≤ ⌊v⌋ := Int.floor_nonneg.mpr hv
    have hfl : (⌊v⌋ : ℚ) ≤ v := Int.floor_le v
    have hfu : v < (⌊v⌋ : ℚ) + 1 := Int.lt_floor_add_one v
    have hI0 : (0 : ℤ) ≤ jsRound (v * 12 - 12 * (⌊v⌋ : ℚ)) := jsRound_nonneg (by linarith)
    have hIb := jsRound_abs_le (v * 12 - 12 * (⌊v⌋ : ℚ))
    rw [abs_le] at hIb
    have hI13 : jsRound (v * 12 - 12 * (⌊v⌋ : ℚ)) < 13 := by
      apply Int.floor_lt.mpr
      push_cast
      linarith
    set F : ℤ := ⌊v⌋ with hFdef
    set I : ℤ := jsRound (v * 12 - 12 * (F : ℚ)) with hIdef
    have hFsmall : F.toNat < 10 ^ 21 := by
      have h1 : (F : ℚ) < 10 ^ 21 := lt_of_le_of_lt hfl hlt
      have h2 : F < 10 ^ 21 := by exact_mod_cast h1
      have h3 : (F.toNat : ℤ) < 10 ^ 21 := by rw [Int.toNat_of_nonneg hF0]; exact h2
      exact_mod_cast h3
    have hIsmall : I.toNat < 10 ^ 21 := by
      have h3 : (I.toNat : ℤ) < 13 := by rw [Int.toNat_of_nonneg hI0]; exact hI13
      have h4 : I.toNat < 13 := by exact_mod_cast h3
      calc I.toNat < 13 := h4
        _ < 10 ^ 21 := by norm_num
    have hcastI : ((I.toNat : ℕ) : ℚ) = (I : ℚ) := by
      exact_mod_cast Int.toNat_of_nonneg hI0
    have hcastF : ((F.toNat : ℕ) : ℚ) = (F : ℚ) := by
      exact_mod_cast Int.toNat_of_nonneg hF0
    by_cases hF : F = 0
    · left
      refine ⟨I.toNat, hIsmall, ?_, ?_⟩
      · exact format_str_eq (by rw [hfmt, if_pos hF, intRepr_nonneg hI0]) (data_nat_dq I.toNat)
      · rw [hcastI]
        rw [hF] at hIb
        push_cast at hIb
        rw [abs_le]
        constructor <;> linarith
    · by_cases hI : I = 0
      · right; left
        refine ⟨F.toNat, hFsmall, by omega, ?_, ?_⟩
        · exact format_str_eq (by rw [hfmt, if_neg hF, if_pos hI, intRepr_nonneg hF0])
            (data_nat_sq F.toNat)
        · rw [hcastF]
          rw [hI] at hIb
          push_cast at hIb
          rw [abs_le]
          constructor <;> linarith
      · right; right
        refine ⟨F.toNat, I.toNat, hFsmall, hIsmall, by omega, by omega, ?_, ?_⟩
        · exact format_str_eq
            (by rw [hfmt, if_neg hF, if_neg hI, intRepr_nonneg hF0, intRepr_nonneg hI0])
            (data_nat_sq_nat_dq F.toNat I.toNat)
        · rw [hcastF, hcastI]
          rw [abs_le]
          constructor <;> linarith
  · -- metric shapes
    have hfmt := formatMetric_eq v
    by_cases h1x : (1 : ℚ) ≤ v
    · have hM1 : (1 : ℤ) ≤ ⌊v⌋ := Int.le_floor.mpr (by exact_mod_cast h1x)
      have hfl : (⌊v⌋ : ℚ) ≤ v := Int.floor_le v
      have hfu : v < (⌊v⌋ : ℚ) + 1 := Int.lt_floor_add_one v
      have hC0 : (0 : ℤ) ≤ jsRound ((v - (⌊v⌋ : ℚ)) * 100) := jsRound_nonneg (by linarith)
      have hCb := jsRound_abs_le ((v - (⌊v⌋ : ℚ)) * 100)
      rw [abs_le] at hCb
      have hC101 : jsRound ((v - (⌊v⌋ : ℚ)) * 100) < 101 := by
        apply Int.floor_lt.mpr
        push_cast
        linarith
      set M : ℤ := ⌊v⌋ with hMdef
      set C : ℤ := jsRound ((v - (M : ℚ)) * 100) with hCdef
      have hMsmall : M.toNat < 10 ^ 21 := by
        have h1 : (M : ℚ) < 10 ^ 21 := lt_of_le_of_lt hfl hlt
        have h2 : M < 10 ^ 21 := by exact_mod_cast h1
        have h3 : (M.toNat : ℤ) < 10 ^ 21 := by
          rw [Int.toNat_of_nonneg (by omega : (0 : ℤ) ≤ M)]
          exact h2
        exact_mod_cast h3
      have hCsmall : C.toNat < 10 ^ 21 := by
        have h3 : (C.toNat : ℤ) < 101 := by rw [Int.toNat_of_nonneg hC0]; exact hC101
        have h4 : C.toNat < 101 := by exact_mod_cast h3
        calc C.toNat < 101 := h4
          _ < 10 ^ 21 := by norm_num
      have hcastM : ((M.toNat : ℕ) : ℚ) = (M : ℚ) := by
        exact_mod_cast Int.toNat_of_nonneg (by omega)
      have hcastC : ((C.toNat : ℕ) : ℚ) = (C : ℚ) := by
        exact_mod_cast Int.toNat_of_nonneg hC0
      by_cases hC : C = 0
      · right; left
        refine ⟨M.toNat, hMsmall, by omega, ?_, ?_⟩
        · exact format_str_eq
            (by rw [hfmt, if_pos h1x, if_pos hC, intRepr_nonneg (by omega)])
            (data_nat_m M.toNat)
        · rw [hcastM]
          rw [hC] at hCb
          push_cast at hCb
          rw [abs_le]
          constructor <;> linarith
      · right; right
        refine ⟨M.toNat, C.toNat, hMsmall, hCsmall, by omega, by omega, ?_, ?_⟩
        · exact format_str_eq
            (by rw [hfmt, if_pos h1x, if_neg hC, intRepr_nonneg (by omega),
              intRepr_nonneg hC0])
            (data_nat_m_nat_cm M.toNat C.toNat)
        · rw [hcastM, hcastC]
          rw [abs_le]
          constructor <;> linarith
    · have hC0 : (0 : ℤ) ≤ jsRound (v * 100) := jsRound_nonneg (by positivity)
      have hCb := jsRound_abs_le (v * 100)
      rw [abs_le] at hCb
      have hC101 : jsRound (v * 100) < 101 := by
        apply Int.floor_lt.mpr
        push_cast
        nlinarith [not_le.mp h1x]
      set C : ℤ := jsRound (v * 100) with hCdef
      have hCsmall : C.toNat < 10 ^ 21 := by
        have h3 : (C.toNat : ℤ) < 101 := by rw [Int.toNat_of_nonneg hC0]; exact hC101
        have h4 : C.toNat < 101 := by exact_mod_cast h3
        calc C.toNat < 101 := h4
          _ < 10 ^ 21 := by norm_num
      have hcastC : ((C.toNat : ℕ) : ℚ) = (C : ℚ) := by
        exact_mod_cast Int.toNat_of_nonneg hC0
      left
      refine ⟨C.toNat, hCsmall, ?_, ?_⟩
      · exact format_str_eq (by rw [hfmt, if_neg h1x, intRepr_nonneg hC0])
          (data_nat_cm C.toNat)
      · rw [hcastC]
        rw [abs_le]
        constructor <;> linarith
  · -- formatMeasurement 5.25 imperial
    have h1 : (⌊(21/4 : ℚ) * 12 / 12⌋ : ℤ) = 5 := by norm_num
    have h2 : jsRound (jsFmod ((21/4 : ℚ) * 12) 12) = 3 := by
      norm_num [jsRound, jsFmod, ratTrunc]
    have h3 : natRepr 5 = ['5'] := by
      rw [natRepr_small (by norm_num), natReprDec_lt10 (by norm_num)]
      decide
    have h4 : natRepr 3 = ['3'] := by
      rw [natRepr_small (by norm_num), natReprDec_lt10 (by norm_num)]
      decide
    refine str_ext ?_
    rw [show (formatMeasurement (21/4) MUnit.imperial).data
        = formatMeasurementL (21/4) MUnit.imperial from rfl]
    simp only [formatMeasurementL, h1, h2, intRepr]
    norm_num [show ((5 : ℤ).toNat) = 5 from rfl, show ((3 : ℤ).toNat) = 3 from rfl, h3, h4]
    decide
  · -- formatMeasurement 5 imperial
    have h1 : (⌊(5 : ℚ) * 12 / 12⌋ : ℤ) = 5 := by norm_num
    have h2 : jsRound (jsFmod ((5 : ℚ) * 12) 12) = 0 := by
      norm_num [jsRound, jsFmod, ratTrunc]
    have h3 : natRepr 5 = ['5'] := by
      rw [natRepr_small (by norm_num), natReprDec_lt10 (by norm_num)]
      decide
    refine str_ext ?_
    rw [show (formatMeasurement 5 MUnit.imperial).data
        = formatMeasurementL 5 MUnit.imperial from rfl]
    simp only [formatMeasurementL, h1, h2, intRepr]
    norm_num [show ((5 : ℤ).toNat) = 5 from rfl, h3]
    decide

/-- C7 (amended) witness: the theorem instantiated at the value 0 yields in
particular the concrete renderings. -/
theorem formatMeasurement_shapes_witness :
    formatMeasurement (21/4) MUnit.imperial = ("5' 3\"") ∧
    formatMeasurement 5 MUnit.imperial = ("5'") :=
  ⟨(formatMeasurement_shapes 0 (le_refl 0) (by norm_num)).2.2.1,
   (formatMeasurement_shapes 0 (le_refl 0) (by norm_num)).2.2.2⟩

/- No-numeral inputs. -/

lemma mem_jsTrim {c : Char} {l : List Char} (h : c ∈ jsTrim l) : c ∈ l := by
  unfold jsTrim at h
  rw [List.mem_reverse] at h
  have h1 : c ∈ (l.dropWhile isWSChar).reverse :=
    (List.dropWhile_sublist isWSChar).subset h
  rw [List.mem_reverse] at h1
  exact (List.dropWhile_sublist isWSChar).subset h1

lemma readSign_subset (l : List Char) : ∀ c ∈ (readSign l).2, c ∈ l := by
  cases l with
  | nil => intro c hc; simp [readSign] at hc
  | cons a t =>
    intro c hc
    by_cases h1 : a == '-'
    · simp only [readSign, h1, if_true] at hc
      exact List.mem_cons_of_mem a hc
    · by_cases h2 : a == '+'
      · simp only [readSign, h1, h2, if_true, if_false] at hc
        exact List.mem_cons_of_mem a hc
      · simp only [readSign, h1, h2, if_false] at hc
        exact hc

lemma jsParseFloatTok_nodigit {l : List Char} (h : ∀ c ∈ l, c.isDigit = false) :
    jsParseFloatTok l = FloatTok.nan ∨ ∃ p, jsParseFloatTok l = FloatTok.inf p := by
  have hsub : ∀ c ∈ (readSign (l.dropWhile isWSChar)).2, c.isDigit = false := by
    intro c hc
    exact h c ((List.dropWhile_sublist isWSChar).subset
      (readSign_subset (l.dropWhile isWSChar) c hc))
  by_cases hinf : List.isPrefixOf ['I', 'n', 'f', 'i', 'n', 'i', 't', 'y']
      (readSign (l.dropWhile isWSChar)).2 = true
  · right
    refine ⟨(readSign (l.dropWhile isWSChar)).1, ?_⟩
    simp only [jsParseFloatTok, hinf, if_true]
  · left
    have htw : List.takeWhile Char.isDigit (readSign (l.dropWhile isWSChar)).2 = [] :=
      takeWhileAllFalse hsub
    have hdw : List.dropWhile Char.isDigit (readSign (l.dropWhile isWSChar)).2
        = (readSign (l.dropWhile isWSChar)).2 := dropWhileAllFalse hsub
    have htail : List.takeWhile Char.isDigit (readSign (l.dropWhile isWSChar)).2.tail = [] :=
      takeWhileAllFalse fun c hc => hsub c (List.mem_of_mem_tail hc)
    simp only [jsParseFloatTok, hinf, if_false, htw, hdw, htail]
    by_cases hdot : (readSign (l.dropWhile isWSChar)).2.head? = some ('.' : Char)
    · rw [if_pos hdot]
      simp
    · rw [if_neg hdot]
      simp

lemma parseFI_nodigit (l : List Char) (h : ∀ c ∈ l, c.isDigit = false) :
    parseFeetInchesL l = JSNum.fin 0 ∨ parseFeetInchesL l = JSNum.inf true ∨
      parseFeetInchesL l = JSNum.inf false := by
  have htr : ∀ c ∈ jsTrim l, c.isDigit = false := fun c hc => h c (mem_jsTrim hc)
  have hf : scanMatchStr [chSQ] (jsTrim l) = none := scan_none_of_nodigit htr
  have hi : scanMatchStr [chDQ] (jsTrim l) = none := scan_none_of_nodigit htr
  simp only [parseFeetInchesL, hf, hi]
  rw [if_neg (by norm_num [matchVal]), if_pos ⟨by simp [matchVal], by simp [matchVal]⟩]
  rcases jsParseFloatTok_nodigit htr with hn | ⟨p, hp⟩
  · left
    rw [jsParseFloatL, hn]
    norm_num [matchVal, tokVal]
  · rw [jsParseFloatL, hp]
    cases p
    · right; right; rfl
    · right; left; rfl

lemma parseMC_nodigit (l : List Char) (h : ∀ c ∈ l, c.isDigit = false) :
    parseMetersCmL l = JSNum.fin 0 ∨ parseMetersCmL l = JSNum.inf true ∨
      parseMetersCmL l = JSNum.inf false := by
  have htr : ∀ c ∈ jsTrim l, c.isDigit = false := fun c hc => h c (mem_jsTrim hc)
  have hm : scanMatchStr ['m'] (jsTrim l) = none := scan_none_of_nodigit htr
  have hc : scanMatchStr ['c', 'm'] (jsTrim l) = none := scan_none_of_nodigit htr
  simp only [parseMetersCmL, hm, hc]
  rw [if_neg (by norm_num [matchVal]), if_pos ⟨by simp [matchVal], by simp [matchVal]⟩]
  rcases jsParseFloatTok_nodigit htr with hn | ⟨p, hp⟩
  · left
    rw [jsParseFloatL, hn]
    norm_num [matchVal, tokVal]
  · rw [jsParseFloatL, hp]
    cases p
    · right; right; rfl
    · right; left; rfl

/-- C3 counterexample: on the no-numeral input `"abc"` both parsers return 0
(a finite number), not NaN. -/
theorem parse_no_numeral_counterexample :
    parseFeetInches ("abc") = JSNum.fin 0 ∧ parseMetersCm ("abc") = JSNum.fin 0 ∧
    JSNum.fin 0 ≠ JSNum.nan := by
  have hpf : jsParseFloatL (("abc" : String).data) = JSNum.nan := by
    rw [jsParseFloatL, show jsParseFloatTok (("abc" : String).data) = FloatTok.nan from
      by decide]
    rfl
  refine ⟨?_, ?_, by decide⟩
  · simp only [parseFeetInches, parseFeetInchesL,
      show jsTrim (("abc" : String).data) = ("abc" : String).data from by decide,
      show scanMatchStr [chSQ] (("abc" : String).data) = none from by decide,
      show scanMatchStr [chDQ] (("abc" : String).data) = none from by decide, hpf]
    norm_num [matchVal]
  · simp only [parseMetersCm, parseMetersCmL,
      show jsTrim (("abc" : String).data) = ("abc" : String).data from by decide,
      show scanMatchStr ['m'] (("abc" : String).data) = none from by decide,
      show scanMatchStr ['c', 'm'] (("abc" : String).data) = none from by decide, hpf]
    norm_num [matchVal]

/-- C3 (amended): for every input containing no numeral, `parseFeetInches` and
`parseMetersCm` return the finite number 0 (or a signed Infinity for a literal
`Infinity` input) — never NaN; the no-value case is signalled through the 0
result, and no exception is raised (the functions are total). -/
theorem parse_no_numeral_returns_zero (s : String)
    (h : ∀ c ∈ s.data, c.isDigit = false) :
    (parseFeetInches s = JSNum.fin 0 ∨ parseFeetInches s = JSNum.inf true ∨
      parseFeetInches s = JSNum.inf false) ∧
    (parseMetersCm s = JSNum.fin 0 ∨ parseMetersCm s = JSNum.inf true ∨
      parseMetersCm s = JSNum.inf false) ∧
    parseFeetInches s ≠ JSNum.nan ∧ parseMetersCm s ≠ JSNum.nan := by
  have h1 := parseFI_nodigit s.data h
  have h2 := parseMC_nodigit s.data h
  refine ⟨h1, h2, ?_, ?_⟩
  · rcases h1 with h1 | h1 | h1 <;> rw [parseFeetInches, h1] <;> simp
  · rcases h2 with h2 | h2 | h2 <;> rw [parseMetersCm, h2] <;> simp

/-- C3 (amended) witness at the input `"abc"`. -/
theorem parse_no_numeral_returns_zero_witness :
    parseFeetInches ("abc") ≠ JSNum.nan ∧ parseMetersCm ("abc") ≠ JSNum.nan :=
  (parse_no_numeral_returns_zero ("abc") (by decide)).2.2

/-- C5: the concrete parser values: `parseFeetInches "5' 3\"" = 5.25`,
`parseFeetInches "6\"" = 0.5` (inches-only divides by 12),
`parseFeetInches "5.5" = 5.5` (bare numeral is feet); and symmetrically
`parseMetersCm "2m 50cm" = 2.5`, `parseMetersCm "150cm" = 1.5`,
`parseMetersCm "2.5" = 2.5`. -/
theorem parse_concrete_values :
    parseFeetInches ("5' 3\"") = JSNum.fin (21/4) ∧
    parseFeetInches ("6\"") = JSNum.fin (1/2) ∧
    parseFeetInches ("5.5") = JSNum.fin (11/2) ∧
    parseMetersCm ("2m 50cm") = JSNum.fin (5/2) ∧
    parseMetersCm ("150cm") = JSNum.fin (3/2) ∧
    parseMetersCm ("2.5") = JSNum.fin (5/2) := by
  refine ⟨?_, ?_, ?_, ?_, ?_, ?_⟩
  · have hf : scanMatchStr [chSQ] (jsTrim (("5' 3\"" : String).data)) = some (['5'], []) := by
      decide
    have hi : scanMatchStr [chDQ] (jsTrim (("5' 3\"" : String).data)) = some (['3'], []) := by
      decide
    simp [parseFeetInches, parseFeetInchesL, hf, hi, matchVal, fracVal,
      show digitsVal ['5'] = 5 from by decide, show digitsVal ['3'] = 3 from by decide,
      show digitsVal [] = 0 from rfl]
    norm_num
  · have hf : scanMatchStr [chSQ] (jsTrim (("6\"" : String).data)) = none := by decide
    have hi : scanMatchStr [chDQ] (jsTrim (("6\"" : String).data)) = some (['6'], []) := by
      decide
    simp [parseFeetInches, parseFeetInchesL, hf, hi, matchVal, fracVal,
      show digitsVal ['6'] = 6 from by decide, show digitsVal [] = 0 from rfl]
    norm_num
  · have hf : scanMatchStr [chSQ] (jsTrim (("5.5" : String).data)) = none := by decide
    have hi : scanMatchStr [chDQ] (jsTrim (("5.5" : String).data)) = none := by decide
    have hp : jsParseFloatTok (jsTrim (("5.5" : String).data))
        = FloatTok.num true ['5'] ['5'] 0 := by decide
    simp [parseFeetInches, parseFeetInchesL, hf, hi, matchVal, jsParseFloatL, hp, tokVal,
      fracVal, show digitsVal ['5'] = 5 from by decide, show digitsVal [] = 0 from rfl]
    norm_num
  · have hm : scanMatchStr ['m'] (jsTrim (("2m 50cm" : String).data)) = some (['2'], []) := by
      decide
    have hc : scanMatchStr ['c', 'm'] (jsTrim (("2m 50cm" : String).data))
        = some (['5', '0'], []) := by decide
    simp [parseMetersCm, parseMetersCmL, hm, hc, matchVal, fracVal,
      show digitsVal ['2'] = 2 from by decide, show digitsVal ['5', '0'] = 50 from by decide,
      show digitsVal [] = 0 from rfl]
    norm_num
  · have hm : scanMatchStr ['m'] (jsTrim (("150cm" : String).data)) = none := by decide
    have hc : scanMatchStr ['c', 'm'] (jsTrim (("150cm" : String).data))
        = some (['1', '5', '0'], []) := by decide
    simp [parseMetersCm, parseMetersCmL, hm, hc, matchVal, fracVal,
      show digitsVal ['1', '5', '0'] = 150 from by decide,
      show digitsVal [] = 0 from rfl]
    norm_num
  · have hm : scanMatchStr ['m'] (jsTrim (("2.5" : String).data)) = none := by decide
    have hc : scanMatchStr ['c', 'm'] (jsTrim (("2.5" : String).data)) = none := by decide
    have hp : jsParseFloatTok (jsTrim (("2.5" : String).data))
        = FloatTok.num true ['2'] ['5'] 0 := by decide
    simp [parseMetersCm, parseMetersCmL, hm, hc, matchVal, jsParseFloatL, hp, tokVal,
      fracVal, show digitsVal ['2'] = 2 from by decide, show digitsVal ['5'] = 5 from by decide,
      show digitsVal [] = 0 from rfl]
    norm_num
